import Mathlib

/-!
Verification development for the 6502 emulator repository.

The definitions below are shallow embeddings of the Python sources:

* `src/src/Cpu.py`   — registers, the flat 64 KiB bus, and the CPU proper
  (stack, addressing modes, instruction handlers, `clock`, `irq`, `nmi`);
* `src/src/Bus.py`   — the region-dispatching bus (`_find_region`, `read`,
  `write`);
* `src/src/ppu.py`   — `FullPPU` (`oam_dma`, `ppu_read_register`, `step`);
* `src/src/assembler_6502_final.py` — the relative-branch resolution slice of
  `Assembler._resolve_operand` and `Assembler._parse_number`;
* `src/src/addressing_mode_detector.py` —
  `AddressingModeDetector.detect_addressing_mode`.

Conventions used throughout (Python-to-Lean):

* Python ints are nonnegative in all the embedded code paths except where a
  subtraction can underflow; there we switch to `Int` and take the
  nonnegative residue, since Python's `x & 0xFF` / `x & 0xFFFF` on a
  (possibly negative) int is exactly the nonnegative residue `x mod 2^8` /
  `x mod 2^16`.  In particular `(sp - 1) & 0xFF` is written
  `(sp + 255) &&& 0xFF`, which agrees with Python for every natural `sp`.
* Python's `~e` only ever occurs immediately under a mask (`& 0x80`,
  `& ~0x80`); we write the equivalent masked forms (`^^^ 0xFF` under
  `&&& 0x80`, and `&&& 0x7F` for `& ~0x80` applied to a byte) and note it
  at each site.
* `bytearray` cells are bytes by construction; memories are modelled as
  `Nat → Nat` together with the well-formedness predicate `MemWF`
  (every cell `< 256`), which every write preserves.
* Logging, debug prints and debug file dumps in the sources mutate no
  emulator state and are omitted.
-/

namespace Emu

/-- 64 KiB memory of the flat `Bus` in `Cpu.py` (`self.ram`). -/
def Mem : Type := Nat → Nat

/-- `Bus.read`: masks the address to 16 bits and returns the stored byte. -/
def busRead (m : Mem) (address : Nat) : Nat := m (address &&& 0xFFFF)

/-- `Bus.write`: masks address to 16 bits and value to 8 bits. -/
def busWrite (m : Mem) (address value : Nat) : Mem :=
  fun a => if a = address &&& 0xFFFF then value &&& 0xFF else m a

/-- `Bus.read_word`: little-endian 16-bit read with wrap-around at `0xFFFF`. -/
def busReadWord (m : Mem) (address : Nat) : Nat :=
  let address := address &&& 0xFFFF
  let lowByte := busRead m address
  let highByte := busRead m ((address + 1) &&& 0xFFFF)
  (highByte <<< 8) ||| lowByte

/-- The `Registers` class of `Cpu.py`, with its reset defaults
(`sp = 0xFD`, `i = 1`, `u = 1`, everything else `0`). -/
structure Registers where
  a : Nat := 0x00
  x : Nat := 0x00
  y : Nat := 0x00
  sp : Nat := 0xFD
  pc : Nat := 0x0000
  c : Nat := 0
  z : Nat := 0
  i : Nat := 1
  d : Nat := 0
  b : Nat := 0
  u : Nat := 1
  v : Nat := 0
  n : Nat := 0
deriving DecidableEq

/-- `Registers.get_status_byte`: assembles the status byte `N V 1 B D I Z C`.
When `pushing` is true the B bit of the assembled byte is forced to 1
(the Python code does this for PHP, BRK, IRQ and NMI alike). -/
def getStatusByte (r : Registers) (pushing : Bool) : Nat :=
  let bFlagVal := if pushing then 1 else r.b
  (r.n <<< 7) ||| (r.v <<< 6) ||| (1 <<< 5) ||| (bFlagVal <<< 4) |||
    (r.d <<< 3) ||| (r.i <<< 2) ||| (r.z <<< 1) ||| r.c

/-- `Registers.set_status_byte`: loads flags from a byte; B is kept and U is
held at 1. -/
def setStatusByte (r : Registers) (value : Nat) : Registers :=
  { r with
    n := (value >>> 7) &&& 1
    v := (value >>> 6) &&& 1
    u := 1
    d := (value >>> 3) &&& 1
    i := (value >>> 2) &&& 1
    z := (value >>> 1) &&& 1
    c := value &&& 1 }

/-- `Registers.update_flag_z`. -/
def updateFlagZ (r : Registers) (result : Nat) : Registers :=
  { r with z := if result &&& 0xFF = 0 then 1 else 0 }

/-- `Registers.update_flag_n`. -/
def updateFlagN (r : Registers) (result : Nat) : Registers :=
  { r with n := if result &&& 0x80 ≠ 0 then 1 else 0 }

/-- The CPU state of `Cpu.py`: registers, the flat bus RAM, and the
bookkeeping attributes set in `CPU.__init__`. -/
structure CPU where
  regs : Registers
  mem : Mem
  halted : Bool := false
  cycles : Nat := 0
  totalCycles : Nat := 0
  addrRel : Int := 0
  addrAbs : Nat := 0
  opcode : Nat := 0

/-- `CPU.push_byte`: write at `0x0100 + SP`, then decrement SP with 8-bit
wrap (`(sp - 1) & 0xFF` in Python equals `(sp + 255) &&& 0xFF` on naturals). -/
def pushByte (s : CPU) (value : Nat) : CPU :=
  let s := { s with mem := busWrite s.mem (0x0100 + s.regs.sp) (value &&& 0xFF) }
  { s with regs := { s.regs with sp := (s.regs.sp + 255) &&& 0xFF } }

/-- `CPU.push_word`: high byte first, then low byte. -/
def pushWord (s : CPU) (value : Nat) : CPU :=
  let s := pushByte s ((value >>> 8) &&& 0xFF)
  pushByte s (value &&& 0xFF)

/-- `CPU.pop_byte`: increment SP with 8-bit wrap, then read `0x0100 + SP`. -/
def popByte (s : CPU) : Nat × CPU :=
  let sp := (s.regs.sp + 1) &&& 0xFF
  let s := { s with regs := { s.regs with sp := sp } }
  (busRead s.mem (0x0100 + sp), s)

/-- `CPU.pop_word`: low byte first, then high byte. -/
def popWord (s : CPU) : Nat × CPU :=
  let (lowByte, s) := popByte s
  let (highByte, s) := popByte s
  ((highByte <<< 8) ||| lowByte, s)

/-- `CPU.fetch_byte`: read at PC and advance PC with 16-bit wrap. -/
def fetchByte (s : CPU) : Nat × CPU :=
  (busRead s.mem s.regs.pc,
    { s with regs := { s.regs with pc := (s.regs.pc + 1) &&& 0xFFFF } })

/-- `CPU.fetch_word`: little-endian, two `fetch_byte`s. -/
def fetchWord (s : CPU) : Nat × CPU :=
  let (lowByte, s) := fetchByte s
  let (highByte, s) := fetchByte s
  ((highByte <<< 8) ||| lowByte, s)

/-- Addressing modes of `Cpu.py` (method names kept). -/
inductive Mode where
  | IMP | ACC | IMM | ZP0 | ZPX | ZPY | ABS | ABX | ABY | IND | IZX | IZY | REL
deriving DecidableEq

/-- The addressing-mode methods.  Each returns `(effective address,
page_crossed)` and threads the CPU state (PC advances, `addr_rel` for REL).
The Python `REL` method returns the signed offset; every caller discards
that return value and reads `self.addr_rel` instead, so here `REL` returns
`0` and stores the offset (as a signed integer) in `addrRel`. -/
def modeExec (mode : Mode) (s : CPU) : Nat × Bool × CPU :=
  match mode with
  | Mode.IMP => (0, false, s)
  | Mode.ACC => (0, false, s)
  | Mode.IMM =>
      let addr := s.regs.pc
      (addr, false, { s with regs := { s.regs with pc := (s.regs.pc + 1) &&& 0xFFFF } })
  | Mode.ZP0 =>
      let (b, s) := fetchByte s
      (b &&& 0x00FF, false, s)
  | Mode.ZPX =>
      let (b, s) := fetchByte s
      ((b + s.regs.x) &&& 0x00FF, false, s)
  | Mode.ZPY =>
      let (b, s) := fetchByte s
      ((b + s.regs.y) &&& 0x00FF, false, s)
  | Mode.ABS =>
      let (w, s) := fetchWord s
      (w, false, s)
  | Mode.ABX =>
      let (baseAddr, s) := fetchWord s
      let addr := (baseAddr + s.regs.x) &&& 0xFFFF
      (addr, (baseAddr &&& 0xFF00) ≠ (addr &&& 0xFF00), s)
  | Mode.ABY =>
      let (baseAddr, s) := fetchWord s
      let addr := (baseAddr + s.regs.y) &&& 0xFFFF
      (addr, (baseAddr &&& 0xFF00) ≠ (addr &&& 0xFF00), s)
  | Mode.IND =>
      let (ptr, s) := fetchWord s
      let lowByte := busRead s.mem ptr
      let highByte :=
        if ptr &&& 0x00FF = 0x00FF then busRead s.mem (ptr &&& 0xFF00)
        else busRead s.mem (ptr + 1)
      ((highByte <<< 8) ||| lowByte, false, s)
  | Mode.IZX =>
      let (base, s) := fetchByte s
      let ptr := (base + s.regs.x) &&& 0xFF
      let lowByte := busRead s.mem ptr
      let highByte := busRead s.mem ((ptr + 1) &&& 0xFF)
      ((highByte <<< 8) ||| lowByte, false, s)
  | Mode.IZY =>
      let (base, s) := fetchByte s
      let lowByte := busRead s.mem base
      let highByte := busRead s.mem ((base + 1) &&& 0xFF)
      let baseAddr := (highByte <<< 8) ||| lowByte
      let addr := (baseAddr + s.regs.y) &&& 0xFFFF
      (addr, (baseAddr &&& 0xFF00) ≠ (addr &&& 0xFF00), s)
  | Mode.REL =>
      let (offsetByte, s) := fetchByte s
      let offset : Int :=
        if offsetByte &&& 0x80 ≠ 0 then (offsetByte : Int) - 0x100 else (offsetByte : Int)
      (0, false, { s with addrRel := offset })

/-- `CPU.fetch_operand`: operand value for the given mode.  The IMP/REL
branch re-invokes the mode function, exactly as the Python does. -/
def fetchOperand (mode : Mode) (s : CPU) : Nat × Bool × CPU :=
  match mode with
  | Mode.ACC => (s.regs.a, false, s)
  | Mode.IMM =>
      let (addr, pageCrossed, s) := modeExec Mode.IMM s
      (busRead s.mem addr, pageCrossed, s)
  | Mode.IMP =>
      let (_, pageCrossed, s) := modeExec Mode.IMP s
      (0, pageCrossed, s)
  | Mode.REL =>
      let (_, pageCrossed, s) := modeExec Mode.REL s
      (0, pageCrossed, s)
  | _ =>
      let (addr, pageCrossed, s) := modeExec mode s
      (busRead s.mem addr, pageCrossed, s)

/-- Python's `(x + offset) & 0xFFFF` where `offset` may be negative:
the nonnegative residue mod `2^16`. -/
def addSigned16 (x : Nat) (offset : Int) : Nat :=
  (((x : Int) + offset) % 65536).toNat

/-- Python's `(x - 1) & 0xFFFF` on an int that may be `0`. -/
def sub1Mask16 (x : Nat) : Nat := (((x : Int) - 1) % 65536).toNat

/-- Python's `(x - 1) & 0xFF` on an int that may be `0`. -/
def sub1Mask8 (x : Nat) : Nat := (((x : Int) - 1) % 256).toNat

/-- Python's `(x - y) & 0xFF` (used by CMP/CPX/CPY, where `x - y` may be
negative). -/
def subMask8 (x y : Nat) : Nat := (((x : Int) - (y : Int)) % 256).toNat

/-- `CPU.ADC`.  The overflow test `(~(a ^ operand) & (a ^ temp)) & 0x80` is
written with `^^^ 0xFF` in place of `~`: under the final `&&& 0x80` mask only
bit 7 matters, and xor-ing with `0xFF` flips bit 7 just as `~` does. -/
def instrADC (mode : Mode) (s : CPU) : Nat × CPU :=
  let (operand, pageCrossed, s) := fetchOperand mode s
  let temp := s.regs.a + operand + s.regs.c
  let r := { s.regs with c := if 0xFF < temp then 1 else 0 }
  let r := updateFlagZ r temp
  let r := { r with
    v := if (((s.regs.a ^^^ operand) ^^^ 0xFF) &&& (s.regs.a ^^^ temp)) &&& 0x80 ≠ 0
         then 1 else 0 }
  let r := updateFlagN r temp
  let r := { r with a := temp &&& 0xFF }
  (if pageCrossed then 1 else 0, { s with regs := r })

/-- `CPU.SBC`: ADC of the one's complement of the operand.  (As in the
source, the overflow test uses the original `operand`, not the
complemented value.) -/
def instrSBC (mode : Mode) (s : CPU) : Nat × CPU :=
  let (operand, pageCrossed, s) := fetchOperand mode s
  let value := operand ^^^ 0xFF
  let temp := s.regs.a + value + s.regs.c
  let r := { s.regs with c := if 0xFF < temp then 1 else 0 }
  let r := updateFlagZ r temp
  let r := { r with
    v := if (((s.regs.a ^^^ operand) ^^^ 0xFF) &&& (s.regs.a ^^^ temp)) &&& 0x80 ≠ 0
         then 1 else 0 }
  let r := updateFlagN r temp
  let r := { r with a := temp &&& 0xFF }
  (if pageCrossed then 1 else 0, { s with regs := r })

/-- `CPU.AND`. -/
def instrAND (mode : Mode) (s : CPU) : Nat × CPU :=
  let (operand, pageCrossed, s) := fetchOperand mode s
  let r := { s.regs with a := s.regs.a &&& operand }
  let r := updateFlagN (updateFlagZ r r.a) r.a
  (if pageCrossed then 1 else 0, { s with regs := r })

/-- `CPU.ORA`. -/
def instrORA (mode : Mode) (s : CPU) : Nat × CPU :=
  let (operand, pageCrossed, s) := fetchOperand mode s
  let r := { s.regs with a := s.regs.a ||| operand }
  let r := updateFlagN (updateFlagZ r r.a) r.a
  (if pageCrossed then 1 else 0, { s with regs := r })

/-- `CPU.EOR`. -/
def instrEOR (mode : Mode) (s : CPU) : Nat × CPU :=
  let (operand, pageCrossed, s) := fetchOperand mode s
  let r := { s.regs with a := s.regs.a ^^^ operand }
  let r := updateFlagN (updateFlagZ r r.a) r.a
  (if pageCrossed then 1 else 0, { s with regs := r })

/-- `CPU.ASL` (accumulator and memory variants). -/
def instrASL (mode : Mode) (s : CPU) : Nat × CPU :=
  if mode = Mode.ACC then
    let operand := s.regs.a
    let r := { s.regs with c := if operand &&& 0x80 ≠ 0 then 1 else 0 }
    let result := (operand <<< 1) &&& 0xFF
    let r := { r with a := result }
    let r := updateFlagN (updateFlagZ r result) result
    (0, { s with regs := r })
  else
    let (addr, _, s) := modeExec mode s
    let operand := busRead s.mem addr
    let r := { s.regs with c := if operand &&& 0x80 ≠ 0 then 1 else 0 }
    let result := (operand <<< 1) &&& 0xFF
    let s := { s with mem := busWrite s.mem addr result }
    let r := updateFlagN (updateFlagZ r result) result
    (0, { s with regs := r })

/-- `CPU.LSR`. -/
def instrLSR (mode : Mode) (s : CPU) : Nat × CPU :=
  if mode = Mode.ACC then
    let operand := s.regs.a
    let r := { s.regs with c := operand &&& 0x01 }
    let result := (operand >>> 1) &&& 0xFF
    let r := { r with a := result }
    let r := updateFlagN (updateFlagZ r result) result
    (0, { s with regs := r })
  else
    let (addr, _, s) := modeExec mode s
    let operand := busRead s.mem addr
    let r := { s.regs with c := operand &&& 0x01 }
    let result := (operand >>> 1) &&& 0xFF
    let s := { s with mem := busWrite s.mem addr result }
    let r := updateFlagN (updateFlagZ r result) result
    (0, { s with regs := r })

/-- `CPU.ROL`. -/
def instrROL (mode : Mode) (s : CPU) : Nat × CPU :=
  if mode = Mode.ACC then
    let operand := s.regs.a
    let newC := if operand &&& 0x80 ≠ 0 then 1 else 0
    let result := ((operand <<< 1) &&& 0xFF) ||| (s.regs.c &&& 0x1)
    let r := { s.regs with c := newC, a := result }
    let r := updateFlagN (updateFlagZ r result) result
    (0, { s with regs := r })
  else
    let (addr, _, s) := modeExec mode s
    let operand := busRead s.mem addr
    let newC := if operand &&& 0x80 ≠ 0 then 1 else 0
    let result := ((operand <<< 1) &&& 0xFF) ||| (s.regs.c &&& 0x1)
    let s := { s with mem := busWrite s.mem addr result }
    let r := { s.regs with c := newC }
    let r := updateFlagN (updateFlagZ r result) result
    (0, { s with regs := r })

/-- `CPU.ROR`. -/
def instrROR (mode : Mode) (s : CPU) : Nat × CPU :=
  if mode = Mode.ACC then
    let operand := s.regs.a
    let newC := if operand &&& 0x01 ≠ 0 then 1 else 0
    let result := ((s.regs.c <<< 7) &&& 0x80) ||| (operand >>> 1)
    let r := { s.regs with c := newC, a := result &&& 0xFF }
    let r := updateFlagN (updateFlagZ r r.a) r.a
    (0, { s with regs := r })
  else
    let (addr, _, s) := modeExec mode s
    let operand := busRead s.mem addr
    let newC := if operand &&& 0x01 ≠ 0 then 1 else 0
    let result := ((s.regs.c <<< 7) &&& 0x80) ||| (operand >>> 1)
    let s := { s with mem := busWrite s.mem addr (result &&& 0xFF) }
    let r := { s.regs with c := newC }
    let r := updateFlagN (updateFlagZ r result) result
    (0, { s with regs := r })

/-- `CPU.LDA`. -/
def instrLDA (mode : Mode) (s : CPU) : Nat × CPU :=
  let (operand, pageCrossed, s) := fetchOperand mode s
  let r := { s.regs with a := operand }
  let r := updateFlagN (updateFlagZ r r.a) r.a
  (if pageCrossed then 1 else 0, { s with regs := r })

/-- `CPU.LDX`. -/
def instrLDX (mode : Mode) (s : CPU) : Nat × CPU :=
  let (operand, pageCrossed, s) := fetchOperand mode s
  let r := { s.regs with x := operand }
  let r := updateFlagN (updateFlagZ r r.x) r.x
  (if pageCrossed then 1 else 0, { s with regs := r })

/-- `CPU.LDY`. -/
def instrLDY (mode : Mode) (s : CPU) : Nat × CPU :=
  let (operand, pageCrossed, s) := fetchOperand mode s
  let r := { s.regs with y := operand }
  let r := updateFlagN (updateFlagZ r r.y) r.y
  (if pageCrossed then 1 else 0, { s with regs := r })

/-- `CPU.STA`. -/
def instrSTA (mode : Mode) (s : CPU) : Nat × CPU :=
  let (addr, _, s) := modeExec mode s
  (0, { s with mem := busWrite s.mem addr s.regs.a })

/-- `CPU.STX`. -/
def instrSTX (mode : Mode) (s : CPU) : Nat × CPU :=
  let (addr, _, s) := modeExec mode s
  (0, { s with mem := busWrite s.mem addr s.regs.x })

/-- `CPU.STY`. -/
def instrSTY (mode : Mode) (s : CPU) : Nat × CPU :=
  let (addr, _, s) := modeExec mode s
  (0, { s with mem := busWrite s.mem addr s.regs.y })

/-- `CPU.INC`. -/
def instrINC (mode : Mode) (s : CPU) : Nat × CPU :=
  let (addr, _, s) := modeExec mode s
  let value := (busRead s.mem addr + 1) &&& 0xFF
  let s := { s with mem := busWrite s.mem addr value }
  let r := updateFlagN (updateFlagZ s.regs value) value
  (0, { s with regs := r })

/-- `CPU.DEC` (`(read - 1) & 0xFF`, where the read byte may be `0`). -/
def instrDEC (mode : Mode) (s : CPU) : Nat × CPU :=
  let (addr, _, s) := modeExec mode s
  let value := sub1Mask8 (busRead s.mem addr)
  let s := { s with mem := busWrite s.mem addr value }
  let r := updateFlagN (updateFlagZ s.regs value) value
  (0, { s with regs := r })

/-- `CPU.INX`. -/
def instrINX (s : CPU) : Nat × CPU :=
  let r := { s.regs with x := (s.regs.x + 1) &&& 0xFF }
  let r := updateFlagN (updateFlagZ r r.x) r.x
  (0, { s with regs := r })

/-- `CPU.INY`. -/
def instrINY (s : CPU) : Nat × CPU :=
  let r := { s.regs with y := (s.regs.y + 1) &&& 0xFF }
  let r := updateFlagN (updateFlagZ r r.y) r.y
  (0, { s with regs := r })

/-- `CPU.DEX`. -/
def instrDEX (s : CPU) : Nat × CPU :=
  let r := { s.regs with x := sub1Mask8 s.regs.x }
  let r := updateFlagN (updateFlagZ r r.x) r.x
  (0, { s with regs := r })

/-- `CPU.DEY`. -/
def instrDEY (s : CPU) : Nat × CPU :=
  let r := { s.regs with y := sub1Mask8 s.regs.y }
  let r := updateFlagN (updateFlagZ r r.y) r.y
  (0, { s with regs := r })

/-- `CPU.PHA`. -/
def instrPHA (s : CPU) : Nat × CPU := (0, pushByte s s.regs.a)

/-- `CPU.PLA`. -/
def instrPLA (s : CPU) : Nat × CPU :=
  let (value, s) := popByte s
  let r := { s.regs with a := value }
  let r := updateFlagN (updateFlagZ r r.a) r.a
  (0, { s with regs := r })

/-- `CPU.PHP` (pushes the status with B forced to 1). -/
def instrPHP (s : CPU) : Nat × CPU :=
  (0, pushByte s (getStatusByte s.regs true))

/-- `CPU.PLP`. -/
def instrPLP (s : CPU) : Nat × CPU :=
  let (status, s) := popByte s
  (0, { s with regs := setStatusByte s.regs status })

/-- `CPU.JMP`. -/
def instrJMP (mode : Mode) (s : CPU) : Nat × CPU :=
  let (addr, _, s) := modeExec mode s
  (0, { s with regs := { s.regs with pc := addr } })

/-- `CPU.JSR`: pushes `(PC - 1)` (the address of the JSR's last byte)
high-byte-first, then jumps. -/
def instrJSR (mode : Mode) (s : CPU) : Nat × CPU :=
  let (targetAddr, _, s) := modeExec mode s
  let returnAddr := sub1Mask16 s.regs.pc
  let s := pushWord s returnAddr
  (0, { s with regs := { s.regs with pc := targetAddr } })

/-- `CPU.RTS`: pops low then high, sets `PC = pulled + 1`. -/
def instrRTS (s : CPU) : Nat × CPU :=
  let (pushedAddr, s) := popWord s
  (0, { s with regs := { s.regs with pc := (pushedAddr + 1) &&& 0xFFFF } })

/-- `CPU.RTI`: manual SP increments; status (B,U ignored), PC low, PC high. -/
def instrRTI (s : CPU) : Nat × CPU :=
  let sp1 := (s.regs.sp + 1) &&& 0xFF
  let status := busRead s.mem (0x0100 + sp1)
  let r := setStatusByte { s.regs with sp := sp1 } status
  let sp2 := (r.sp + 1) &&& 0xFF
  let pcLow := busRead s.mem (0x0100 + sp2)
  let sp3 := (sp2 + 1) &&& 0xFF
  let pcHigh := busRead s.mem (0x0100 + sp3)
  (0, { s with regs := { r with sp := sp3, pc := (pcHigh <<< 8) ||| pcLow } })

/-- Common body of the eight branch instructions: the mode function (REL) has
already stored the signed offset in `addrRel`; if `cond` holds the branch is
taken, costing one extra cycle plus one more on page crossing. -/
def branchOn (cond : Bool) (s : CPU) : Nat × CPU :=
  if cond then
    let oldPc := s.regs.pc
    let newPc := addSigned16 s.regs.pc s.addrRel
    let s := { s with regs := { s.regs with pc := newPc } }
    let extraCycles := 1
    let extraCycles :=
      if oldPc &&& 0xFF00 ≠ newPc &&& 0xFF00 then extraCycles + 1 else extraCycles
    (extraCycles, s)
  else (0, s)

/-- `CPU.BCC`. -/
def instrBCC (mode : Mode) (s : CPU) : Nat × CPU :=
  let (_, _, s) := modeExec mode s
  branchOn (s.regs.c = 0) s

/-- `CPU.BCS`. -/
def instrBCS (mode : Mode) (s : CPU) : Nat × CPU :=
  let (_, _, s) := modeExec mode s
  branchOn (s.regs.c = 1) s

/-- `CPU.BEQ`. -/
def instrBEQ (mode : Mode) (s : CPU) : Nat × CPU :=
  let (_, _, s) := modeExec mode s
  branchOn (s.regs.z = 1) s

/-- `CPU.BMI`. -/
def instrBMI (mode : Mode) (s : CPU) : Nat × CPU :=
  let (_, _, s) := modeExec mode s
  branchOn (s.regs.n = 1) s

/-- `CPU.BNE`. -/
def instrBNE (mode : Mode) (s : CPU) : Nat × CPU :=
  let (_, _, s) := modeExec mode s
  branchOn (s.regs.z = 0) s

/-- `CPU.BPL`. -/
def instrBPL (mode : Mode) (s : CPU) : Nat × CPU :=
  let (_, _, s) := modeExec mode s
  branchOn (s.regs.n = 0) s

/-- `CPU.BVC`. -/
def instrBVC (mode : Mode) (s : CPU) : Nat × CPU :=
  let (_, _, s) := modeExec mode s
  branchOn (s.regs.v = 0) s

/-- `CPU.BVS`. -/
def instrBVS (mode : Mode) (s : CPU) : Nat × CPU :=
  let (_, _, s) := modeExec mode s
  branchOn (s.regs.v = 1) s

/-- `CPU.CMP`. -/
def instrCMP (mode : Mode) (s : CPU) : Nat × CPU :=
  let (operand, pageCrossed, s) := fetchOperand mode s
  let result := subMask8 s.regs.a operand
  let r := { s.regs with c := if operand ≤ s.regs.a then 1 else 0 }
  let r := updateFlagN (updateFlagZ r result) result
  (if pageCrossed then 1 else 0, { s with regs := r })

/-- `CPU.CPX` (no page-crossing extra cycle). -/
def instrCPX (mode : Mode) (s : CPU) : Nat × CPU :=
  let (operand, _, s) := fetchOperand mode s
  let result := subMask8 s.regs.x operand
  let r := { s.regs with c := if operand ≤ s.regs.x then 1 else 0 }
  let r := updateFlagN (updateFlagZ r result) result
  (0, { s with regs := r })

/-- `CPU.CPY`. -/
def instrCPY (mode : Mode) (s : CPU) : Nat × CPU :=
  let (operand, _, s) := fetchOperand mode s
  let result := subMask8 s.regs.y operand
  let r := { s.regs with c := if operand ≤ s.regs.y then 1 else 0 }
  let r := updateFlagN (updateFlagZ r result) result
  (0, { s with regs := r })

/-- `CPU.BIT`. -/
def instrBIT (mode : Mode) (s : CPU) : Nat × CPU :=
  let (operand, _, s) := fetchOperand mode s
  let result := s.regs.a &&& operand
  let r := updateFlagZ s.regs result
  let r := { r with n := if operand &&& 0x80 ≠ 0 then 1 else 0 }
  let r := { r with v := if operand &&& 0x40 ≠ 0 then 1 else 0 }
  (0, { s with regs := r })

/-- `CPU.TAX`. -/
def instrTAX (s : CPU) : Nat × CPU :=
  let r := { s.regs with x := s.regs.a }
  let r := updateFlagN (updateFlagZ r r.x) r.x
  (0, { s with regs := r })

/-- `CPU.TXA`. -/
def instrTXA (s : CPU) : Nat × CPU :=
  let r := { s.regs with a := s.regs.x }
  let r := updateFlagN (updateFlagZ r r.a) r.a
  (0, { s with regs := r })

/-- `CPU.TAY`. -/
def instrTAY (s : CPU) : Nat × CPU :=
  let r := { s.regs with y := s.regs.a }
  let r := updateFlagN (updateFlagZ r r.y) r.y
  (0, { s with regs := r })

/-- `CPU.TYA`. -/
def instrTYA (s : CPU) : Nat × CPU :=
  let r := { s.regs with a := s.regs.y }
  let r := updateFlagN (updateFlagZ r r.a) r.a
  (0, { s with regs := r })

/-- `CPU.TSX`. -/
def instrTSX (s : CPU) : Nat × CPU :=
  let r := { s.regs with x := s.regs.sp }
  let r := updateFlagN (updateFlagZ r r.x) r.x
  (0, { s with regs := r })

/-- `CPU.TXS` (no flags). -/
def instrTXS (s : CPU) : Nat × CPU :=
  (0, { s with regs := { s.regs with sp := s.regs.x } })

/-- `CPU.CLC`. -/
def instrCLC (s : CPU) : Nat × CPU := (0, { s with regs := { s.regs with c := 0 } })

/-- `CPU.SEC`. -/
def instrSEC (s : CPU) : Nat × CPU := (0, { s with regs := { s.regs with c := 1 } })

/-- `CPU.CLI`. -/
def instrCLI (s : CPU) : Nat × CPU := (0, { s with regs := { s.regs with i := 0 } })

/-- `CPU.SEI`. -/
def instrSEI (s : CPU) : Nat × CPU := (0, { s with regs := { s.regs with i := 1 } })

/-- `CPU.CLD`. -/
def instrCLD (s : CPU) : Nat × CPU := (0, { s with regs := { s.regs with d := 0 } })

/-- `CPU.SED`. -/
def instrSED (s : CPU) : Nat × CPU := (0, { s with regs := { s.regs with d := 1 } })

/-- `CPU.CLV`. -/
def instrCLV (s : CPU) : Nat × CPU := (0, { s with regs := { s.regs with v := 0 } })

/-- `CPU.BRK`: skip the padding byte, set I, push PC then status (B=1),
load PC from `$FFFE`. -/
def instrBRK (s : CPU) : Nat × CPU :=
  let s := { s with regs := { s.regs with pc := (s.regs.pc + 1) &&& 0xFFFF } }
  let s := { s with regs := { s.regs with i := 1 } }
  let s := pushWord s s.regs.pc
  let s := pushByte s (getStatusByte s.regs true)
  (0, { s with regs := { s.regs with pc := busReadWord s.mem 0xFFFE } })

/-- `CPU.NOP`. -/
def instrNOP (s : CPU) : Nat × CPU := (0, s)

/-- `CPU.XXX` (illegal opcode): the Python only logs a diagnostic dump
(reads on this bus have no side effect) and returns 0 extra cycles. -/
def instrXXX (s : CPU) : Nat × CPU := (0, s)

/-- The instruction mnemonics appearing in `CPU._build_lookup_table`,
plus the illegal-opcode handler `XXX`. -/
inductive Instr where
  | LDA | LDX | LDY | STA | STX | STY
  | ADC | SBC | AND | ORA | EOR
  | ASL | LSR | ROL | ROR
  | INC | DEC | INX | INY | DEX | DEY
  | PHA | PLA | PHP | PLP
  | JMP | JSR | RTS | RTI
  | BCC | BCS | BEQ | BMI | BNE | BPL | BVC | BVS
  | CMP | CPX | CPY | BIT
  | TAX | TXA | TAY | TYA | TSX | TXS
  | CLC | SEC | CLI | SEI | CLD | SED | CLV
  | BRK | NOP | XXX
deriving DecidableEq

/-- Dispatch to the instruction handlers (the method call
`instr_func(addr_mode_func)` in `CPU.clock`). -/
def execInstr (instr : Instr) (mode : Mode) (s : CPU) : Nat × CPU :=
  match instr with
  | Instr.LDA => instrLDA mode s
  | Instr.LDX => instrLDX mode s
  | Instr.LDY => instrLDY mode s
  | Instr.STA => instrSTA mode s
  | Instr.STX => instrSTX mode s
  | Instr.STY => instrSTY mode s
  | Instr.ADC => instrADC mode s
  | Instr.SBC => instrSBC mode s
  | Instr.AND => instrAND mode s
  | Instr.ORA => instrORA mode s
  | Instr.EOR => instrEOR mode s
  | Instr.ASL => instrASL mode s
  | Instr.LSR => instrLSR mode s
  | Instr.ROL => instrROL mode s
  | Instr.ROR => instrROR mode s
  | Instr.INC => instrINC mode s
  | Instr.DEC => instrDEC mode s
  | Instr.INX => instrINX s
  | Instr.INY => instrINY s
  | Instr.DEX => instrDEX s
  | Instr.DEY => instrDEY s
  | Instr.PHA => instrPHA s
  | Instr.PLA => instrPLA s
  | Instr.PHP => instrPHP s
  | Instr.PLP => instrPLP s
  | Instr.JMP => instrJMP mode s
  | Instr.JSR => instrJSR mode s
  | Instr.RTS => instrRTS s
  | Instr.RTI => instrRTI s
  | Instr.BCC => instrBCC mode s
  | Instr.BCS => instrBCS mode s
  | Instr.BEQ => instrBEQ mode s
  | Instr.BMI => instrBMI mode s
  | Instr.BNE => instrBNE mode s
  | Instr.BPL => instrBPL mode s
  | Instr.BVC => instrBVC mode s
  | Instr.BVS => instrBVS mode s
  | Instr.CMP => instrCMP mode s
  | Instr.CPX => instrCPX mode s
  | Instr.CPY => instrCPY mode s
  | Instr.BIT => instrBIT mode s
  | Instr.TAX => instrTAX s
  | Instr.TXA => instrTXA s
  | Instr.TAY => instrTAY s
  | Instr.TYA => instrTYA s
  | Instr.TSX => instrTSX s
  | Instr.TXS => instrTXS s
  | Instr.CLC => instrCLC s
  | Instr.SEC => instrSEC s
  | Instr.CLI => instrCLI s
  | Instr.SEI => instrSEI s
  | Instr.CLD => instrCLD s
  | Instr.SED => instrSED s
  | Instr.CLV => instrCLV s
  | Instr.BRK => instrBRK s
  | Instr.NOP => instrNOP s
  | Instr.XXX => instrXXX s

/-- `CPU._build_lookup_table`: opcode byte to `(handler, mode, base cycles)`;
unmapped opcodes get `(XXX, IMP, 2)`. -/
def lookup (opcode : Nat) : Instr × Mode × Nat :=
  match opcode with
  | 0xA9 => (Instr.LDA, Mode.IMM, 2)
  | 0xA5 => (Instr.LDA, Mode.ZP0, 3)
  | 0xB5 => (Instr.LDA, Mode.ZPX, 4)
  | 0xAD => (Instr.LDA, Mode.ABS, 4)
  | 0xBD => (Instr.LDA, Mode.ABX, 4)
  | 0xB9 => (Instr.LDA, Mode.ABY, 4)
  | 0xA1 => (Instr.LDA, Mode.IZX, 6)
  | 0xB1 => (Instr.LDA, Mode.IZY, 5)
  | 0xA2 => (Instr.LDX, Mode.IMM, 2)
  | 0xA6 => (Instr.LDX, Mode.ZP0, 3)
  | 0xB6 => (Instr.LDX, Mode.ZPY, 4)
  | 0xAE => (Instr.LDX, Mode.ABS, 4)
  | 0xBE => (Instr.LDX, Mode.ABY, 4)
  | 0xA0 => (Instr.LDY, Mode.IMM, 2)
  | 0xA4 => (Instr.LDY, Mode.ZP0, 3)
  | 0xB4 => (Instr.LDY, Mode.ZPX, 4)
  | 0xAC => (Instr.LDY, Mode.ABS, 4)
  | 0xBC => (Instr.LDY, Mode.ABX, 4)
  | 0x85 => (Instr.STA, Mode.ZP0, 3)
  | 0x95 => (Instr.STA, Mode.ZPX, 4)
  | 0x8D => (Instr.STA, Mode.ABS, 4)
  | 0x9D => (Instr.STA, Mode.ABX, 5)
  | 0x99 => (Instr.STA, Mode.ABY, 5)
  | 0x81 => (Instr.STA, Mode.IZX, 6)
  | 0x91 => (Instr.STA, Mode.IZY, 6)
  | 0x86 => (Instr.STX, Mode.ZP0, 3)
  | 0x96 => (Instr.STX, Mode.ZPY, 4)
  | 0x8E => (Instr.STX, Mode.ABS, 4)
  | 0x84 => (Instr.STY, Mode.ZP0, 3)
  | 0x94 => (Instr.STY, Mode.ZPX, 4)
  | 0x8C => (Instr.STY, Mode.ABS, 4)
  | 0x69 => (Instr.ADC, Mode.IMM, 2)
  | 0x65 => (Instr.ADC, Mode.ZP0, 3)
  | 0x75 => (Instr.ADC, Mode.ZPX, 4)
  | 0x6D => (Instr.ADC, Mode.ABS, 4)
  | 0x7D => (Instr.ADC, Mode.ABX, 4)
  | 0x79 => (Instr.ADC, Mode.ABY, 4)
  | 0x61 => (Instr.ADC, Mode.IZX, 6)
  | 0x71 => (Instr.ADC, Mode.IZY, 5)
  | 0xE9 => (Instr.SBC, Mode.IMM, 2)
  | 0xE5 => (Instr.SBC, Mode.ZP0, 3)
  | 0xF5 => (Instr.SBC, Mode.ZPX, 4)
  | 0xED => (Instr.SBC, Mode.ABS, 4)
  | 0xFD => (Instr.SBC, Mode.ABX, 4)
  | 0xF9 => (Instr.SBC, Mode.ABY, 4)
  | 0xE1 => (Instr.SBC, Mode.IZX, 6)
  | 0xF1 => (Instr.SBC, Mode.IZY, 5)
  | 0x29 => (Instr.AND, Mode.IMM, 2)
  | 0x25 => (Instr.AND, Mode.ZP0, 3)
  | 0x35 => (Instr.AND, Mode.ZPX, 4)
  | 0x2D => (Instr.AND, Mode.ABS, 4)
  | 0x3D => (Instr.AND, Mode.ABX, 4)
  | 0x39 => (Instr.AND, Mode.ABY, 4)
  | 0x21 => (Instr.AND, Mode.IZX, 6)
  | 0x31 => (Instr.AND, Mode.IZY, 5)
  | 0x09 => (Instr.ORA, Mode.IMM, 2)
  | 0x05 => (Instr.ORA, Mode.ZP0, 3)
  | 0x15 => (Instr.ORA, Mode.ZPX, 4)
  | 0x0D => (Instr.ORA, Mode.ABS, 4)
  | 0x1D => (Instr.ORA, Mode.ABX, 4)
  | 0x19 => (Instr.ORA, Mode.ABY, 4)
  | 0x01 => (Instr.ORA, Mode.IZX, 6)
  | 0x11 => (Instr.ORA, Mode.IZY, 5)
  | 0x49 => (Instr.EOR, Mode.IMM, 2)
  | 0x45 => (Instr.EOR, Mode.ZP0, 3)
  | 0x55 => (Instr.EOR, Mode.ZPX, 4)
  | 0x4D => (Instr.EOR, Mode.ABS, 4)
  | 0x5D => (Instr.EOR, Mode.ABX, 4)
  | 0x59 => (Instr.EOR, Mode.ABY, 4)
  | 0x41 => (Instr.EOR, Mode.IZX, 6)
  | 0x51 => (Instr.EOR, Mode.IZY, 5)
  | 0x0A => (Instr.ASL, Mode.ACC, 2)
  | 0x06 => (Instr.ASL, Mode.ZP0, 5)
  | 0x16 => (Instr.ASL, Mode.ZPX, 6)
  | 0x0E => (Instr.ASL, Mode.ABS, 6)
  | 0x1E => (Instr.ASL, Mode.ABX, 7)
  | 0x4A => (Instr.LSR, Mode.ACC, 2)
  | 0x46 => (Instr.LSR, Mode.ZP0, 5)
  | 0x56 => (Instr.LSR, Mode.ZPX, 6)
  | 0x4E => (Instr.LSR, Mode.ABS, 6)
  | 0x5E => (Instr.LSR, Mode.ABX, 7)
  | 0x2A => (Instr.ROL, Mode.ACC, 2)
  | 0x26 => (Instr.ROL, Mode.ZP0, 5)
  | 0x36 => (Instr.ROL, Mode.ZPX, 6)
  | 0x2E => (Instr.ROL, Mode.ABS, 6)
  | 0x3E => (Instr.ROL, Mode.ABX, 7)
  | 0x6A => (Instr.ROR, Mode.ACC, 2)
  | 0x66 => (Instr.ROR, Mode.ZP0, 5)
  | 0x76 => (Instr.ROR, Mode.ZPX, 6)
  | 0x6E => (Instr.ROR, Mode.ABS, 6)
  | 0x7E => (Instr.ROR, Mode.ABX, 7)
  | 0xE6 => (Instr.INC, Mode.ZP0, 5)
  | 0xF6 => (Instr.INC, Mode.ZPX, 6)
  | 0xEE => (Instr.INC, Mode.ABS, 6)
  | 0xFE => (Instr.INC, Mode.ABX, 7)
  | 0xC6 => (Instr.DEC, Mode.ZP0, 5)
  | 0xD6 => (Instr.DEC, Mode.ZPX, 6)
  | 0xCE => (Instr.DEC, Mode.ABS, 6)
  | 0xDE => (Instr.DEC, Mode.ABX, 7)
  | 0xE8 => (Instr.INX, Mode.IMP, 2)
  | 0xC8 => (Instr.INY, Mode.IMP, 2)
  | 0xCA => (Instr.DEX, Mode.IMP, 2)
  | 0x88 => (Instr.DEY, Mode.IMP, 2)
  | 0x48 => (Instr.PHA, Mode.IMP, 3)
  | 0x68 => (Instr.PLA, Mode.IMP, 4)
  | 0x08 => (Instr.PHP, Mode.IMP, 3)
  | 0x28 => (Instr.PLP, Mode.IMP, 4)
  | 0x4C => (Instr.JMP, Mode.ABS, 3)
  | 0x6C => (Instr.JMP, Mode.IND, 5)
  | 0x20 => (Instr.JSR, Mode.ABS, 6)
  | 0x60 => (Instr.RTS, Mode.IMP, 6)
  | 0x40 => (Instr.RTI, Mode.IMP, 6)
  | 0x90 => (Instr.BCC, Mode.REL, 2)
  | 0xB0 => (Instr.BCS, Mode.REL, 2)
  | 0xF0 => (Instr.BEQ, Mode.REL, 2)
  | 0x30 => (Instr.BMI, Mode.REL, 2)
  | 0xD0 => (Instr.BNE, Mode.REL, 2)
  | 0x10 => (Instr.BPL, Mode.REL, 2)
  | 0x50 => (Instr.BVC, Mode.REL, 2)
  | 0x70 => (Instr.BVS, Mode.REL, 2)
  | 0xC9 => (Instr.CMP, Mode.IMM, 2)
  | 0xC5 => (Instr.CMP, Mode.ZP0, 3)
  | 0xD5 => (Instr.CMP, Mode.ZPX, 4)
  | 0xCD => (Instr.CMP, Mode.ABS, 4)
  | 0xDD => (Instr.CMP, Mode.ABX, 4)
  | 0xD9 => (Instr.CMP, Mode.ABY, 4)
  | 0xC1 => (Instr.CMP, Mode.IZX, 6)
  | 0xD1 => (Instr.CMP, Mode.IZY, 5)
  | 0xE0 => (Instr.CPX, Mode.IMM, 2)
  | 0xE4 => (Instr.CPX, Mode.ZP0, 3)
  | 0xEC => (Instr.CPX, Mode.ABS, 4)
  | 0xC0 => (Instr.CPY, Mode.IMM, 2)
  | 0xC4 => (Instr.CPY, Mode.ZP0, 3)
  | 0xCC => (Instr.CPY, Mode.ABS, 4)
  | 0x24 => (Instr.BIT, Mode.ZP0, 3)
  | 0x2C => (Instr.BIT, Mode.ABS, 4)
  | 0xAA => (Instr.TAX, Mode.IMP, 2)
  | 0x8A => (Instr.TXA, Mode.IMP, 2)
  | 0xA8 => (Instr.TAY, Mode.IMP, 2)
  | 0x98 => (Instr.TYA, Mode.IMP, 2)
  | 0xBA => (Instr.TSX, Mode.IMP, 2)
  | 0x9A => (Instr.TXS, Mode.IMP, 2)
  | 0x18 => (Instr.CLC, Mode.IMP, 2)
  | 0x38 => (Instr.SEC, Mode.IMP, 2)
  | 0x58 => (Instr.CLI, Mode.IMP, 2)
  | 0x78 => (Instr.SEI, Mode.IMP, 2)
  | 0xD8 => (Instr.CLD, Mode.IMP, 2)
  | 0xF8 => (Instr.SED, Mode.IMP, 2)
  | 0xB8 => (Instr.CLV, Mode.IMP, 2)
  | 0x00 => (Instr.BRK, Mode.IMP, 7)
  | 0xEA => (Instr.NOP, Mode.IMP, 2)
  | _ => (Instr.XXX, Mode.IMP, 2)

/-- `CPU.clock`: run one instruction and return `(cycles consumed, state)`.
If halted, returns 0 immediately.  The `_last_instr_pc` bus annotation, the
PPU advance (no PPU is attached to this flat bus: `getattr(bus, 'ppu',
None)` is `None`) and the debug logging mutate no CPU state and are
omitted. -/
def clock (s : CPU) : Nat × CPU :=
  if s.halted then (0, s)
  else
    let (opcode, s) := fetchByte s
    let s := { s with opcode := opcode }
    let (instr, mode, cycles) := lookup opcode
    let (extraCycles, s) := execInstr instr mode s
    let totalCycles := cycles + extraCycles
    (totalCycles, { s with cycles := totalCycles, totalCycles := s.totalCycles + totalCycles })

/-- `CPU.irq`: ignored when I is set; otherwise push PC and status
(via `get_status_byte(pushing=True)`, after setting the internal B flag
to 0), set I, and load PC from `$FFFE`.  Returns its cycle count. -/
def irq (s : CPU) : Nat × CPU :=
  if s.regs.i = 1 then (0, s)
  else
    let s := pushWord s s.regs.pc
    let s := { s with regs := { s.regs with b := 0 } }
    let s := pushByte s (getStatusByte s.regs true)
    let s := { s with regs := { s.regs with i := 1 } }
    (7, { s with regs := { s.regs with pc := busReadWord s.mem 0xFFFE } })

/-- `CPU.nmi`: push PC and status (via `get_status_byte(pushing=True)`,
after setting the internal B flag to 0), set I, and load PC from `$FFFA`. -/
def nmi (s : CPU) : Nat × CPU :=
  let s := pushWord s s.regs.pc
  let s := { s with regs := { s.regs with b := 0 } }
  let s := pushByte s (getStatusByte s.regs true)
  let s := { s with regs := { s.regs with i := 1 } }
  (8, { s with regs := { s.regs with pc := busReadWord s.mem 0xFFFA } })

/-- A CPU at the reset register defaults over zeroed RAM (used as the
concrete witness state). -/
def cpuZero : CPU := { regs := {}, mem := fun _ => 0 }

/-- `cpuZero` with the CPU halted (witness state for the halted frame
property). -/
def cpuHalted : CPU := { regs := {}, mem := fun _ => 0, halted := true }

/-- A CPU with the I flag clear, so that `irq` is not masked (witness state
for the IRQ status-push check). -/
def cpuIrqReady : CPU := { regs := { i := 0 }, mem := fun _ => 0 }

/-- Accumulator `$7F`, carry clear, next program byte `$01` — the boundary
case `ADC $7F + $01` named by the spec. -/
def cpuAdc7F : CPU := { regs := { a := 0x7F, c := 0 }, mem := fun _ => 0x01 }

/-- Program memory with `JSR $8010` at `$0000` and `RTS` at `$8010`. -/
def memJsr : Mem := fun a =>
  if a = 0 then 0x20 else if a = 1 then 0x10 else if a = 2 then 0x80
  else if a = 0x8010 then 0x60 else 0

/-- CPU about to execute `JSR $8010` (witness state for the JSR/RTS pair). -/
def cpuJsr : CPU := { regs := {}, mem := memJsr }

/-! ### The region-dispatching bus of `src/src/Bus.py` -/

/-- One entry of `Bus.mapped_regions`: the tuple
`(start, end, read_fn, write_fn)`.  The handler callables are abstract
(type parameters `R` and `W`); `end` is a Lean keyword, so the field is
named `stop`. -/
structure Region (R W : Type) where
  start : Nat
  stop : Nat
  reader : Option R
  writer : Option W

/-- The state of `Bus.py`'s `Bus` that read/write dispatch consults: the
64 KiB `ram` backing store and the ordered region registry. -/
structure RegionBus (R W : Type) where
  ram : Mem
  mappedRegions : List (Region R W)

/-- The `mode` argument of `Bus._find_region` (`'read'` or `'write'`). -/
inductive AccessDir where
  | rd | wr

/-- `start <= address <= end` — the membership test in `_find_region`. -/
def covers {R W : Type} (r : Region R W) (address : Nat) : Bool :=
  decide (r.start ≤ address ∧ address ≤ r.stop)

/-- `Bus._find_region`: prefer the first region covering the (16-bit
masked) address that has a handler for the requested direction; otherwise
the first covering region; otherwise none. -/
def findRegion {R W : Type} (regions : List (Region R W)) (address : Nat)
    (mode : AccessDir) : Option (Region R W) :=
  let address := address &&& 0xFFFF
  let preferred :=
    match mode with
    | AccessDir.rd => regions.find? (fun r => covers r address && r.reader.isSome)
    | AccessDir.wr => regions.find? (fun r => covers r address && r.writer.isSome)
  match preferred with
  | some r => some r
  | none => regions.find? (fun r => covers r address)

/-- `Bus.read`: if the found region has a reader, use it (masking the
result to a byte); otherwise fall through to the RAM backing store.
Readers are concrete functions so the returned byte can be stated. -/
def regionBusRead {W : Type} (b : RegionBus (Nat → Nat) W) (address : Nat) : Nat :=
  let address := address &&& 0xFFFF
  match findRegion b.mappedRegions address AccessDir.rd with
  | some r =>
    match r.reader with
    | some f => f address &&& 0xFF
    | none => b.ram address
  | none => b.ram address

/-- The observable effect of `Bus.write`: either a region's write handler
is invoked (with the masked address and byte), or the RAM backing store is
updated.  (The write log and the `$02xx` debug file dump mutate no
dispatch-relevant state and are omitted.) -/
inductive WriteOutcome (W : Type) where
  | handler (w : W) (address value : Nat)
  | toRam (newRam : Mem)

/-- `Bus.write`: dispatch on `_find_region(address, mode='write')`. -/
def regionBusWrite {R W : Type} (b : RegionBus R W) (address value : Nat) :
    WriteOutcome W :=
  let address := address &&& 0xFFFF
  let value := value &&& 0xFF
  match findRegion b.mappedRegions address AccessDir.wr with
  | some r =>
    match r.writer with
    | some w => WriteOutcome.handler w address value
    | none => WriteOutcome.toRam (fun a => if a = address then value else b.ram a)
  | none => WriteOutcome.toRam (fun a => if a = address then value else b.ram a)

/-! ### The PPU of `src/src/ppu.py` (`class FullPPU`) -/

/-- State of `FullPPU`: the `regs` dict (one field per register), the byte
stores, the timing counters, the `$2006`/`$2005` latch, the PPUDATA read
buffer and the OAM-DMA stall bookkeeping.  The NMI callback slot is
modelled by an installed flag plus an invocation counter (the callback the
driver installs calls `cpu.nmi()`; here only its invocations are counted). -/
structure Ppu where
  reg2000 : Nat := 0
  reg2001 : Nat := 0
  reg2002 : Nat := 0
  reg2003 : Nat := 0
  reg2004 : Nat := 0
  reg2005 : Nat := 0
  reg2006 : Nat := 0
  reg2007 : Nat := 0
  vram : Nat → Nat
  oam : Nat → Nat
  palette : Nat → Nat
  ppuCycle : Nat := 0
  scanline : Nat := 0
  frame : Nat := 0
  inVblank : Bool := false
  nmiFired : Bool := false
  addrLatch : Nat := 0
  readBuffer : Nat := 0
  tempAddr : Nat := 0
  nmiCallbackInstalled : Bool := false
  nmiCallbackCount : Nat := 0
  oamDmaCycles : Nat := 0
  oamDmaActive : Bool := false

/-- `FullPPU.__init__`: all registers and counters zero, no callback. -/
def fullPpuInit : Ppu := { vram := fun _ => 0, oam := fun _ => 0, palette := fun _ => 0 }

/-- `FullPPU._vram_index`. -/
def vramIndex (index : Nat) : Nat := index &&& 0x7FF

/-- `FullPPU._read_palette`: entry 0 is read for every 4-aligned index. -/
def readPalette (p : Ppu) (addrByte : Nat) : Nat :=
  let idx := addrByte &&& 0x1F
  if idx &&& 0x03 = 0 then p.palette 0 &&& 0xFF else p.palette idx &&& 0xFF

/-- The `self.regs.get(addr, 0)` fallback of `ppu_read_register` for the
registers without special read behaviour. -/
def ppuRegGet (p : Ppu) (addr : Nat) : Nat :=
  match addr with
  | 0x2000 => p.reg2000
  | 0x2001 => p.reg2001
  | 0x2002 => p.reg2002
  | 0x2003 => p.reg2003
  | 0x2004 => p.reg2004
  | 0x2005 => p.reg2005
  | 0x2006 => p.reg2006
  | 0x2007 => p.reg2007
  | _ => 0

/-- `FullPPU.ppu_read_register`: `$2002` returns the status byte, clears
its bit 7 (Python `val & ~0x80`, i.e. `val &&& 0x7F` on the byte `val`),
resets the address latch and the pending-NMI edge; `$2007` is the buffered
VRAM/palette read with auto-increment; the rest return the stored byte.
(The read counters only feed debug logging and are omitted.) -/
def ppuReadRegister (p : Ppu) (addr : Nat) : Nat × Ppu :=
  let addr := 0x2000 ||| (addr &&& 0x7)
  if addr = 0x2002 then
    let val := p.reg2002 &&& 0xFF
    (val, { p with reg2002 := val &&& 0x7F, addrLatch := 0, nmiFired := false })
  else if addr = 0x2007 then
    let addrV := p.reg2006
    let (val, p) :=
      if 0x3F00 ≤ addrV &&& 0xFFFF ∧ addrV &&& 0xFFFF ≤ 0x3FFF then
        (readPalette p (addrV &&& 0xFF), p)
      else
        let val := p.readBuffer &&& 0xFF
        let inc := if p.reg2000 &&& 0x04 ≠ 0 then 32 else 1
        let nextAddr := (addrV + inc) &&& 0x7FF
        (val, { p with readBuffer := p.vram (vramIndex (nextAddr &&& 0x7FF)) })
    let inc := if p.reg2000 &&& 0x04 ≠ 0 then 32 else 1
    (val, { p with reg2006 := (p.reg2006 + inc) &&& 0xFFFF })
  else
    (ppuRegGet p addr &&& 0xFF, p)

/-- `FullPPU.oam_dma`: read the 256 bytes at `page<<8 .. page<<8+0xFF`
through the bus (`bus.read((base+i) & 0xFFFF)`), store them into
`OAM[0..255]` (masked to bytes), and start the 514-cycle DMA stall.  The
debug JSON dumps touch no PPU state.  Note the copy starts at OAM index 0;
`OAMADDR` (`regs[0x2003]`) is not consulted. -/
def oamDma (p : Ppu) (busReadFn : Nat → Nat) (page : Nat) : Ppu :=
  let base := (page &&& 0xFF) <<< 8
  let newOam : Nat → Nat := fun i =>
    if i < 256 then busReadFn ((base + i) &&& 0xFFFF) &&& 0xFF else p.oam i
  { p with oam := newOam, oamDmaCycles := 514, oamDmaActive := true }

/-- One iteration of the `while self.ppu_cycle >= 341` loop in
`FullPPU.step`: consume one scanline's worth of dots, advance the
scanline; on entering 241 set VBlank and (when enabled, installed, and not
yet fired) invoke the NMI callback once; tick down an active OAM-DMA stall
by `ppu_clocks // 3` CPU cycles; on passing 260 wrap to scanline 0 of the
next frame, clearing VBlank (`& ~0x80`, i.e. `&&& 0x7F` on the byte) and
the fired edge. -/
def stepIter (ppuClocks : Nat) (p : Ppu) : Ppu :=
  let p : Ppu := { p with ppuCycle := p.ppuCycle - 341, scanline := p.scanline + 1 }
  let p : Ppu :=
    if p.scanline = 241 then
      let p : Ppu := { p with inVblank := true, reg2002 := p.reg2002 ||| 0x80 }
      if p.reg2000 &&& 0x80 ≠ 0 ∧ p.nmiCallbackInstalled = true ∧ p.nmiFired = false then
        { p with nmiCallbackCount := p.nmiCallbackCount + 1, nmiFired := true }
      else p
    else p
  let p : Ppu :=
    if p.oamDmaActive = true then
      let cpuCycles := ppuClocks / 3
      let p : Ppu := { p with oamDmaCycles := p.oamDmaCycles - cpuCycles }
      if p.oamDmaCycles = 0 then { p with oamDmaActive := false } else p
    else p
  if 260 < p.scanline then
    { p with scanline := 0, frame := p.frame + 1, inVblank := false,
             reg2002 := p.reg2002 &&& 0x7F, nmiFired := false }
  else p

/-- The `while self.ppu_cycle >= 341` loop, written with structural fuel;
each iteration removes 341 dots, so `fuel = ppu_cycle` always suffices. -/
def stepLoop (fuel ppuClocks : Nat) (p : Ppu) : Ppu :=
  match fuel with
  | 0 => p
  | f + 1 => if 341 ≤ p.ppuCycle then stepLoop f ppuClocks (stepIter ppuClocks p) else p

/-- `FullPPU.step`: ignore non-positive clock counts, add the dots, run the
scanline loop. -/
def stepPpu (p : Ppu) (ppuClocks : Nat) : Ppu :=
  if ppuClocks = 0 then p
  else
    let p := { p with ppuCycle := p.ppuCycle + ppuClocks }
    stepLoop p.ppuCycle ppuClocks p

/-- Events driving the PPU from outside between whole steps: a `step`
call, or a CPU read of `$2002` (PPUSTATUS) through `ppu_read_register`. -/
inductive PpuEv where
  | step (ppuClocks : Nat)
  | readStatus

/-- Run a sequence of PPU events. -/
def runPpu (evs : List PpuEv) (p : Ppu) : Ppu :=
  match evs with
  | [] => p
  | PpuEv.step n :: rest => runPpu rest (stepPpu p n)
  | PpuEv.readStatus :: rest => runPpu rest (ppuReadRegister p 0x2002).2

/-- Invariant tying the NMI-callback count to the frame/scanline position:
within VBlank-or-later scanlines of the current frame the callback has
fired exactly once more than the number of completed frames. -/
def PpuInv (ctrl : Nat) (p : Ppu) : Prop :=
  p.scanline ≤ 260 ∧
  (p.scanline ≤ 240 → p.nmiFired = false) ∧
  ((p.scanline < 241 ∧ p.nmiCallbackCount = p.frame) ∨
    (241 ≤ p.scanline ∧ p.nmiCallbackCount = p.frame + 1)) ∧
  p.reg2000 = ctrl ∧ p.nmiCallbackInstalled = true

/-- The DMA source function used by the OAM-DMA witnesses: CPU address `a`
holds the byte `a % 256`. -/
def dmaSrc : Nat → Nat := fun a => a % 256

/-- A freshly initialised PPU whose OAMADDR (`$2003`) register is 1. -/
def ppuOamd1 : Ppu := { fullPpuInit with reg2003 := 1 }

/-- A region `[0,10]` whose reader returns `$107` (witness region for the
dispatch contract; the bus read masks the result to a byte). -/
def reg7 : Region (Nat → Nat) Unit := ⟨0, 10, some (fun _ => 0x107), none⟩

/-- A region bus holding just `reg7` over zeroed RAM. -/
def busReg7 : RegionBus (Nat → Nat) Unit := ⟨fun _ => 0, [reg7]⟩

/-- A freshly initialised `FullPPU` with PPUCTRL (`$2000`) preset to `ctrl`
and an NMI callback installed (`set_nmi_callback`). -/
def ppuStart (ctrl : Nat) : Ppu :=
  { fullPpuInit with reg2000 := ctrl, nmiCallbackInstalled := true }

/-! ### C2: assembler branch-offset resolution -/

/-- The `AddressingMode.RELATIVE` branch of `Assembler._resolve_operand`
(`assembler_6502_final.py`), after the target and current addresses have
been determined: the offset is `target - (current + 2)`; an offset outside
`[-128, 127]` is clamped to the nearest bound (`if offset < -128 or
offset > 127`), and the result is encoded as an unsigned byte. -/
def resolveOperandRelative (targetAddress currentAddress : Int) : Int :=
  let offset := targetAddress - (currentAddress + 2)
  let offset :=
    if offset < -128 ∨ 127 < offset then (if offset < 0 then -128 else 127) else offset
  if offset < 0 then 256 + offset else offset

/-! ### C8: the assembler's addressing-mode detector -/

/-- ASCII whitespace as recognised by Python `str.strip()` (the operands
handled here are ASCII). -/
def isPySpace (c : Char) : Bool :=
  c == ' ' || c == '\t' || c == '\n' || c == '\r' || c == '\x0b' || c == '\x0c'

/-- Python `str.strip()` on a character list. -/
def pyStrip (s : List Char) : List Char :=
  ((s.dropWhile isPySpace).reverse.dropWhile isPySpace).reverse

/-- Python `str.upper()` on one ASCII character. -/
def pyUpperChar : Char → Char
  | 'a' => 'A' | 'b' => 'B' | 'c' => 'C' | 'd' => 'D' | 'e' => 'E' | 'f' => 'F'
  | 'g' => 'G' | 'h' => 'H' | 'i' => 'I' | 'j' => 'J' | 'k' => 'K' | 'l' => 'L'
  | 'm' => 'M' | 'n' => 'N' | 'o' => 'O' | 'p' => 'P' | 'q' => 'Q' | 'r' => 'R'
  | 's' => 'S' | 't' => 'T' | 'u' => 'U' | 'v' => 'V' | 'w' => 'W' | 'x' => 'X'
  | 'y' => 'Y' | 'z' => 'Z'
  | c => c

/-- Python `str.upper()` on a character list. -/
def pyUpper (s : List Char) : List Char := s.map pyUpperChar

/-- `List.isPrefixOf`, spelled out. -/
def isPrefixL : List Char → List Char → Bool
  | [], _ => true
  | _ :: _, [] => false
  | a :: as, b :: bs => a == b && isPrefixL as bs

/-- Python substring containment `pat in s`. -/
def hasSubstr (pat : List Char) : List Char → Bool
  | [] => pat.isEmpty
  | c :: rest => isPrefixL pat (c :: rest) || hasSubstr pat rest

/-- `operand.split(',')[0]`: the characters before the first comma. -/
def beforeComma (s : List Char) : List Char := s.takeWhile (fun c => !(c == ','))

/-- Decimal-digit run with Python's underscore grammar
(`digit (underscore? digit)*`), accumulating the value. -/
def parseDigitsAux : Nat → List Char → Option Nat
  | acc, [] => some acc
  | acc, '_' :: c :: rest =>
    if c.isDigit then parseDigitsAux (acc * 10 + (c.toNat - 48)) rest else none
  | acc, c :: rest =>
    if c.isDigit then parseDigitsAux (acc * 10 + (c.toNat - 48)) rest else none

/-- A nonempty decimal-digit run (underscores allowed between digits). -/
def parseDigits : List Char → Option Nat
  | [] => none
  | '_' :: _ => none
  | c :: rest => if c.isDigit then parseDigitsAux (c.toNat - 48) rest else none

/-- Python `int(value)` in base 10 on an already-stripped string: optional
sign, then digits with optional single underscores between them.
(`int` would also strip surrounding whitespace, but every call site has
already applied `.strip()`.) -/
def pyIntDec (s : List Char) : Option Int :=
  match s with
  | '+' :: rest => (parseDigits rest).map (fun n => (n : Int))
  | '-' :: rest => (parseDigits rest).map (fun n => -(n : Int))
  | _ => (parseDigits s).map (fun n => (n : Int))

/-- One hexadecimal digit. -/
def hexDigitVal (c : Char) : Option Nat :=
  if '0' ≤ c ∧ c ≤ '9' then some (c.toNat - 48)
  else if 'a' ≤ c ∧ c ≤ 'f' then some (c.toNat - 87)
  else if 'A' ≤ c ∧ c ≤ 'F' then some (c.toNat - 55)
  else none

/-- Hex-digit run with the underscore grammar, accumulating the value. -/
def parseHexAux : Nat → List Char → Option Nat
  | acc, [] => some acc
  | acc, '_' :: c :: rest =>
    match hexDigitVal c with
    | some d => parseHexAux (acc * 16 + d) rest
    | none => none
  | acc, c :: rest =>
    match hexDigitVal c with
    | some d => parseHexAux (acc * 16 + d) rest
    | none => none

/-- A nonempty hex-digit run (underscores allowed between digits). -/
def parseHexRun : List Char → Option Nat
  | [] => none
  | '_' :: _ => none
  | c :: rest =>
    match hexDigitVal c with
    | some d => parseHexAux d rest
    | none => none

/-- Python `int(s, 16)` on an already-stripped string: optional sign,
optional `0x`/`0X` prefix, hex digits. -/
def pyIntHex (s : List Char) : Option Int :=
  let core : List Char → Option Int := fun t =>
    match t with
    | '0' :: 'x' :: rest => (parseHexRun rest).map (fun n => (n : Int))
    | '0' :: 'X' :: rest => (parseHexRun rest).map (fun n => (n : Int))
    | _ => (parseHexRun t).map (fun n => (n : Int))
  match s with
  | '+' :: rest => core rest
  | '-' :: rest => (core rest).map (fun v => -v)
  | _ => core s

/-- `Assembler._parse_number`: symbol-table lookup first, then `$hex`,
then `%binary` (not needed by the claims and represented by its hex
sibling's shape: a `%` operand reaching the claims below never parses),
else decimal.  The symbol table is abstracted as a lookup function. -/
def parseNumber (symbols : List Char → Option Int) (value : List Char) : Option Int :=
  match symbols value with
  | some v => some v
  | none =>
    match value with
    | '$' :: rest => pyIntHex rest
    | _ => pyIntDec value

namespace AddressingMode

def IMPLICIT : Nat := 0
def ACCUMULATOR : Nat := 1
def IMMEDIATE : Nat := 2
def ABSOLUTE : Nat := 3
def ABSOLUTE_X : Nat := 4
def ABSOLUTE_Y : Nat := 5
def ZEROPAGE : Nat := 6
def ZEROPAGE_X : Nat := 7
def ZEROPAGE_Y : Nat := 8
def INDIRECT : Nat := 9
def INDIRECT_X : Nat := 10
def INDIRECT_Y : Nat := 11
def RELATIVE : Nat := 12

end AddressingMode

/-- The regex `^\s*\(\s*[^)]+\s*,\s*X\s*\)\s*$` (ignoring case).  Since
`[^)]` includes whitespace, the language is: optional whitespace, `(`,
then a body free of `)` ending in `,` ws `X` ws with a nonempty part
before that comma, then the first `)`, then only whitespace. -/
def matchIndirectX (s : List Char) : Bool :=
  match s.dropWhile isPySpace with
  | '(' :: rest =>
    let body := rest.takeWhile (fun c => !(c == ')'))
    let after := rest.dropWhile (fun c => !(c == ')'))
    match after with
    | ')' :: tail =>
      (tail.dropWhile isPySpace).isEmpty &&
        (match body.reverse.dropWhile isPySpace with
         | x :: r2 =>
           (x == 'X' || x == 'x') &&
             (match r2.dropWhile isPySpace with
              | ',' :: r3 => !r3.isEmpty
              | _ => false)
         | [] => false)
    | _ => false
  | _ => false

/-- The regex `^\s*\(\s*[^)]+\s*\)\s*,\s*Y\s*$` (ignoring case): optional
whitespace, `(`, a nonempty body free of `)`, the first `)`, then
whitespace, `,`, whitespace, `Y`, trailing whitespace. -/
def matchIndirectY (s : List Char) : Bool :=
  match s.dropWhile isPySpace with
  | '(' :: rest =>
    let body := rest.takeWhile (fun c => !(c == ')'))
    let after := rest.dropWhile (fun c => !(c == ')'))
    (!body.isEmpty) &&
      (match after with
       | ')' :: tail =>
         (match tail.dropWhile isPySpace with
          | ',' :: t2 =>
            (match t2.dropWhile isPySpace with
             | y :: t3 => (y == 'Y' || y == 'y') && (t3.dropWhile isPySpace).isEmpty
             | [] => false)
          | _ => false)
       | _ => false)
  | _ => false

/-- The regex `^\s*\(\s*[^)]+\s*\)\s*$`: optional whitespace, `(`, a
nonempty body free of `)`, the first `)`, trailing whitespace. -/
def matchIndirect (s : List Char) : Bool :=
  match s.dropWhile isPySpace with
  | '(' :: rest =>
    let body := rest.takeWhile (fun c => !(c == ')'))
    let after := rest.dropWhile (fun c => !(c == ')'))
    (!body.isEmpty) &&
      (match after with
       | ')' :: tail => (tail.dropWhile isPySpace).isEmpty
       | _ => false)
  | _ => false

/-- `AddressingModeDetector.detect_addressing_mode`
(`addressing_mode_detector.py`): strip; empty → implicit; `A` →
accumulator; leading `#` → immediate; the three indirect regexes; then
`,X`/`,Y` indexed forms, where a `$`-operand is zero page iff its text
(including the `$`) has at most 3 characters, a decimal operand iff its
value is below 256, and anything unparsable is absolute; then plain `$`
operands by the same length rule; default absolute. -/
def detectAddressingMode (operand0 : List Char) : Nat :=
  let operand := pyStrip operand0
  if operand.isEmpty then AddressingMode.IMPLICIT
  else if pyUpper operand = ['A'] then AddressingMode.ACCUMULATOR
  else if operand.headD ' ' = '#' then AddressingMode.IMMEDIATE
  else if matchIndirectX operand then AddressingMode.INDIRECT_X
  else if matchIndirectY operand then AddressingMode.INDIRECT_Y
  else if matchIndirect operand then AddressingMode.INDIRECT
  else if hasSubstr [',', 'X'] (pyUpper operand) then
    let value := pyStrip (beforeComma operand)
    if value.headD ' ' = '$' then
      if value.length ≤ 3 then AddressingMode.ZEROPAGE_X else AddressingMode.ABSOLUTE_X
    else
      match pyIntDec value with
      | some num => if num < 256 then AddressingMode.ZEROPAGE_X else AddressingMode.ABSOLUTE_X
      | none => AddressingMode.ABSOLUTE_X
  else if hasSubstr [',', 'Y'] (pyUpper operand) then
    let value := pyStrip (beforeComma operand)
    if value.headD ' ' = '$' then
      if value.length ≤ 3 then AddressingMode.ZEROPAGE_Y else AddressingMode.ABSOLUTE_Y
    else
      match pyIntDec value with
      | some num => if num < 256 then AddressingMode.ZEROPAGE_Y else AddressingMode.ABSOLUTE_Y
      | none => AddressingMode.ABSOLUTE_Y
  else if operand.headD ' ' = '$' then
    if operand.length ≤ 3 then AddressingMode.ZEROPAGE else AddressingMode.ABSOLUTE
  else AddressingMode.ABSOLUTE

/-! ### Well-formedness: register and memory width invariants -/

/-- Every RAM cell is a byte (true of the `bytearray` backing store). -/
def MemWF (m : Mem) : Prop := ∀ a, m a < 256

/-- The register widths of the data model: A, X, Y, SP are bytes, PC is a
16-bit word, and the unused flag U is held at 1. -/
def RegsWF (r : Registers) : Prop :=
  r.a < 256 ∧ r.x < 256 ∧ r.y < 256 ∧ r.sp < 256 ∧ r.pc < 65536 ∧ r.u = 1

/-- Combined CPU well-formedness. -/
def CpuWF (s : CPU) : Prop := RegsWF s.regs ∧ MemWF s.mem

theorem land_ff_lt (x : Nat) : x &&& 0xFF < 256 :=
  Nat.and_pow_two_sub_one_eq_mod x 8 ▸ Nat.mod_lt _ (by norm_num)

theorem land_ffff_lt (x : Nat) : x &&& 0xFFFF < 65536 :=
  Nat.and_pow_two_sub_one_eq_mod x 16 ▸ Nat.mod_lt _ (by norm_num)

theorem shl8_eq (h : Nat) : h <<< 8 = h * 256 := by
  rw [Nat.shiftLeft_eq]

theorem or_shl8_lt {h l : Nat} (hh : h < 256) (hl : l < 256) :
    (h <<< 8) ||| l < 65536 := by
  have h1 : h <<< 8 < 2 ^ 16 := by rw [shl8_eq]; omega
  have h2 : l < 2 ^ 16 := lt_of_lt_of_le hl (by norm_num)
  have := Nat.or_lt_two_pow (n := 16) h1 h2
  norm_num at this
  exact this

theorem sub1Mask8_lt (x : Nat) : sub1Mask8 x < 256 := by
  unfold sub1Mask8; omega

theorem sub1Mask16_lt (x : Nat) : sub1Mask16 x < 65536 := by
  unfold sub1Mask16; omega

theorem subMask8_lt (x y : Nat) : subMask8 x y < 256 := by
  unfold subMask8; omega

theorem addSigned16_lt (x : Nat) (o : Int) : addSigned16 x o < 65536 := by
  unfold addSigned16; omega

theorem busRead_lt {m : Mem} (h : MemWF m) (addr : Nat) : busRead m addr < 256 :=
  h _

theorem busWrite_wf {m : Mem} (h : MemWF m) (addr value : Nat) :
    MemWF (busWrite m addr value) := by
  intro a
  unfold busWrite
  split
  · exact land_ff_lt _
  · exact h a

theorem pushByte_wf {s : CPU} (h : CpuWF s) (value : Nat) :
    CpuWF (pushByte s value) := by
  obtain ⟨⟨ha, hx, hy, hsp, hpc, hu⟩, hm⟩ := h
  exact ⟨⟨ha, hx, hy, land_ff_lt _, hpc, hu⟩, busWrite_wf hm _ _⟩

theorem pushWord_wf {s : CPU} (h : CpuWF s) (value : Nat) :
    CpuWF (pushWord s value) :=
  pushByte_wf (pushByte_wf h _) _

theorem popByte_wf {s : CPU} (h : CpuWF s) :
    (popByte s).1 < 256 ∧ CpuWF (popByte s).2 := by
  obtain ⟨⟨ha, hx, hy, hsp, hpc, hu⟩, hm⟩ := h
  exact ⟨hm _, ⟨ha, hx, hy, land_ff_lt _, hpc, hu⟩, hm⟩

theorem popWord_wf {s : CPU} (h : CpuWF s) :
    (popWord s).1 < 65536 ∧ CpuWF (popWord s).2 := by
  obtain ⟨h1, h2⟩ := popByte_wf h
  obtain ⟨h3, h4⟩ := popByte_wf h2
  unfold popWord
  constructor
  · exact or_shl8_lt h3 h1
  · exact h4

theorem fetchByte_wf {s : CPU} (h : CpuWF s) :
    (fetchByte s).1 < 256 ∧ CpuWF (fetchByte s).2 := by
  obtain ⟨⟨ha, hx, hy, hsp, hpc, hu⟩, hm⟩ := h
  exact ⟨hm _, ⟨ha, hx, hy, hsp, land_ffff_lt _, hu⟩, hm⟩

theorem fetchWord_wf {s : CPU} (h : CpuWF s) :
    (fetchWord s).1 < 65536 ∧ CpuWF (fetchWord s).2 := by
  obtain ⟨h1, h2⟩ := fetchByte_wf h
  obtain ⟨h3, h4⟩ := fetchByte_wf h2
  unfold fetchWord
  constructor
  · exact or_shl8_lt h3 h1
  · exact h4

/-- The addressing-mode methods preserve well-formedness (they only advance
PC, with 16-bit masking, and record the branch offset). -/
theorem modeExec_wf (mode : Mode) (s : CPU) (h : CpuWF s) :
    CpuWF (modeExec mode s).2.2 := by
  obtain ⟨⟨ha, hx, hy, hsp, hpc, hu⟩, hm⟩ := h
  cases mode <;>
    simp only [modeExec, fetchByte, fetchWord] <;>
    first
      | exact ⟨⟨ha, hx, hy, hsp, hpc, hu⟩, hm⟩
      | exact ⟨⟨ha, hx, hy, hsp, land_ffff_lt _, hu⟩, hm⟩

/-- The addressing-mode methods never touch memory or the registers other
than PC; record the fields instruction proofs need. -/
theorem modeExec_frame (mode : Mode) (s : CPU) :
    (modeExec mode s).2.2.mem = s.mem ∧
    (modeExec mode s).2.2.regs.a = s.regs.a ∧
    (modeExec mode s).2.2.regs.x = s.regs.x ∧
    (modeExec mode s).2.2.regs.y = s.regs.y ∧
    (modeExec mode s).2.2.regs.sp = s.regs.sp ∧
    (modeExec mode s).2.2.regs.u = s.regs.u ∧
    (modeExec mode s).2.2.halted = s.halted := by
  cases mode <;> simp [modeExec, fetchByte, fetchWord]

/-- `fetch_operand` returns a byte and preserves well-formedness. -/
theorem fetchOperand_wf (mode : Mode) (s : CPU) (h : CpuWF s) :
    (fetchOperand mode s).1 < 256 ∧ CpuWF (fetchOperand mode s).2.2 := by
  have hm : MemWF s.mem := h.2
  have hwf := modeExec_wf mode s h
  have hfr := (modeExec_frame mode s).1
  cases mode <;>
    simp only [fetchOperand] <;>
    first
      | exact ⟨h.1.1, h⟩
      | exact ⟨by rw [hfr]; exact busRead_lt hm _, hwf⟩
      | exact ⟨by norm_num, hwf⟩

theorem or_ff_lt {a b : Nat} (ha : a < 256) (hb : b < 256) : a ||| b < 256 := by
  have := Nat.or_lt_two_pow (n := 8) (lt_of_lt_of_le ha (by norm_num))
    (lt_of_lt_of_le hb (by norm_num))
  norm_num at this
  exact this

theorem busReadWord_lt {m : Mem} (h : MemWF m) (addr : Nat) :
    busReadWord m addr < 65536 := by
  unfold busReadWord
  exact or_shl8_lt (h _) (h _)

/-- The effective address returned by any addressing mode is a 16-bit word
(on a well-formed state). -/
theorem modeExec_addr_lt (mode : Mode) (s : CPU) (h : CpuWF s) :
    (modeExec mode s).1 < 65536 := by
  obtain ⟨⟨ha, hx, hy, hsp, hpc, hu⟩, hm⟩ := h
  cases mode
  case IMP => simp [modeExec]
  case ACC => simp [modeExec]
  case IMM => simp only [modeExec]; exact hpc
  case ZP0 => simp only [modeExec, fetchByte]; exact lt_of_lt_of_le (land_ff_lt _) (by norm_num)
  case ZPX => simp only [modeExec, fetchByte]; exact lt_of_lt_of_le (land_ff_lt _) (by norm_num)
  case ZPY => simp only [modeExec, fetchByte]; exact lt_of_lt_of_le (land_ff_lt _) (by norm_num)
  case ABS => simp only [modeExec, fetchWord, fetchByte]; exact or_shl8_lt (hm _) (hm _)
  case ABX => simp only [modeExec, fetchWord, fetchByte]; exact land_ffff_lt _
  case ABY => simp only [modeExec, fetchWord, fetchByte]; exact land_ffff_lt _
  case IND =>
    simp only [modeExec, fetchWord, fetchByte]
    split <;> exact or_shl8_lt (hm _) (hm _)
  case IZX => simp only [modeExec, fetchByte]; exact or_shl8_lt (hm _) (hm _)
  case IZY => simp only [modeExec, fetchByte]; exact land_ffff_lt _
  case REL => simp only [modeExec, fetchByte]; norm_num

theorem setStatusByte_wf {r : Registers} (h : RegsWF r) (v : Nat) :
    RegsWF (setStatusByte r v) := by
  obtain ⟨ha, hx, hy, hsp, hpc, _⟩ := h
  exact ⟨ha, hx, hy, hsp, hpc, rfl⟩

theorem branchOn_wf (cond : Bool) {s : CPU} (h : CpuWF s) :
    CpuWF (branchOn cond s).2 := by
  obtain ⟨⟨ha, hx, hy, hsp, hpc, hu⟩, hm⟩ := h
  unfold branchOn
  split
  · exact ⟨⟨ha, hx, hy, hsp, addSigned16_lt _ _, hu⟩, hm⟩
  · exact ⟨⟨ha, hx, hy, hsp, hpc, hu⟩, hm⟩

theorem instrLDA_wf (mode : Mode) (s : CPU) (h : CpuWF s) :
    CpuWF (instrLDA mode s).2 := by
  have hw := fetchOperand_wf mode s h
  rcases hE : fetchOperand mode s with ⟨val, crossed, s1⟩
  rw [hE] at hw
  obtain ⟨hval, ⟨⟨ha, hx, hy, hsp, hpc, hu⟩, hm⟩⟩ := hw
  simp [instrLDA, hE, updateFlagZ, updateFlagN]
  exact ⟨⟨hval, hx, hy, hsp, hpc, hu⟩, hm⟩

theorem instrLDX_wf (mode : Mode) (s : CPU) (h : CpuWF s) :
    CpuWF (instrLDX mode s).2 := by
  have hw := fetchOperand_wf mode s h
  rcases hE : fetchOperand mode s with ⟨val, crossed, s1⟩
  rw [hE] at hw
  obtain ⟨hval, ⟨⟨ha, hx, hy, hsp, hpc, hu⟩, hm⟩⟩ := hw
  simp [instrLDX, hE, updateFlagZ, updateFlagN]
  exact ⟨⟨ha, hval, hy, hsp, hpc, hu⟩, hm⟩

theorem instrLDY_wf (mode : Mode) (s : CPU) (h : CpuWF s) :
    CpuWF (instrLDY mode s).2 := by
  have hw := fetchOperand_wf mode s h
  rcases hE : fetchOperand mode s with ⟨val, crossed, s1⟩
  rw [hE] at hw
  obtain ⟨hval, ⟨⟨ha, hx, hy, hsp, hpc, hu⟩, hm⟩⟩ := hw
  simp [instrLDY, hE, updateFlagZ, updateFlagN]
  exact ⟨⟨ha, hx, hval, hsp, hpc, hu⟩, hm⟩

theorem instrADC_wf (mode : Mode) (s : CPU) (h : CpuWF s) :
    CpuWF (instrADC mode s).2 := by
  have hw := fetchOperand_wf mode s h
  rcases hE : fetchOperand mode s with ⟨val, crossed, s1⟩
  rw [hE] at hw
  obtain ⟨hval, ⟨⟨ha, hx, hy, hsp, hpc, hu⟩, hm⟩⟩ := hw
  simp [instrADC, hE, updateFlagZ, updateFlagN]
  exact ⟨⟨land_ff_lt _, hx, hy, hsp, hpc, hu⟩, hm⟩

theorem instrSBC_wf (mode : Mode) (s : CPU) (h : CpuWF s) :
    CpuWF (instrSBC mode s).2 := by
  have hw := fetchOperand_wf mode s h
  rcases hE : fetchOperand mode s with ⟨val, crossed, s1⟩
  rw [hE] at hw
  obtain ⟨hval, ⟨⟨ha, hx, hy, hsp, hpc, hu⟩, hm⟩⟩ := hw
  simp [instrSBC, hE, updateFlagZ, updateFlagN]
  exact ⟨⟨land_ff_lt _, hx, hy, hsp, hpc, hu⟩, hm⟩

theorem instrAND_wf (mode : Mode) (s : CPU) (h : CpuWF s) :
    CpuWF (instrAND mode s).2 := by
  have hw := fetchOperand_wf mode s h
  rcases hE : fetchOperand mode s with ⟨val, crossed, s1⟩
  rw [hE] at hw
  obtain ⟨hval, ⟨⟨ha, hx, hy, hsp, hpc, hu⟩, hm⟩⟩ := hw
  simp [instrAND, hE, updateFlagZ, updateFlagN]
  have : s1.regs.a &&& val < 256 :=
    Nat.lt_of_le_of_lt (Nat.and_le_left) ha
  exact ⟨⟨this, hx, hy, hsp, hpc, hu⟩, hm⟩

theorem instrORA_wf (mode : Mode) (s : CPU) (h : CpuWF s) :
    CpuWF (instrORA mode s).2 := by
  have hw := fetchOperand_wf mode s h
  rcases hE : fetchOperand mode s with ⟨val, crossed, s1⟩
  rw [hE] at hw
  obtain ⟨hval, ⟨⟨ha, hx, hy, hsp, hpc, hu⟩, hm⟩⟩ := hw
  simp [instrORA, hE, updateFlagZ, updateFlagN]
  exact ⟨⟨or_ff_lt ha hval, hx, hy, hsp, hpc, hu⟩, hm⟩

theorem instrEOR_wf (mode : Mode) (s : CPU) (h : CpuWF s) :
    CpuWF (instrEOR mode s).2 := by
  have hw := fetchOperand_wf mode s h
  rcases hE : fetchOperand mode s with ⟨val, crossed, s1⟩
  rw [hE] at hw
  obtain ⟨hval, ⟨⟨ha, hx, hy, hsp, hpc, hu⟩, hm⟩⟩ := hw
  simp [instrEOR, hE, updateFlagZ, updateFlagN]
  have : s1.regs.a ^^^ val < 256 := by
    have := Nat.xor_lt_two_pow (n := 8) (lt_of_lt_of_le ha (by norm_num))
      (lt_of_lt_of_le hval (by norm_num))
    norm_num at this
    exact this
  exact ⟨⟨this, hx, hy, hsp, hpc, hu⟩, hm⟩

theorem instrCMP_wf (mode : Mode) (s : CPU) (h : CpuWF s) :
    CpuWF (instrCMP mode s).2 := by
  have hw := fetchOperand_wf mode s h
  rcases hE : fetchOperand mode s with ⟨val, crossed, s1⟩
  rw [hE] at hw
  obtain ⟨hval, ⟨⟨ha, hx, hy, hsp, hpc, hu⟩, hm⟩⟩ := hw
  simp [instrCMP, hE, updateFlagZ, updateFlagN]
  exact ⟨⟨ha, hx, hy, hsp, hpc, hu⟩, hm⟩

theorem instrCPX_wf (mode : Mode) (s : CPU) (h : CpuWF s) :
    CpuWF (instrCPX mode s).2 := by
  have hw := fetchOperand_wf mode s h
  rcases hE : fetchOperand mode s with ⟨val, crossed, s1⟩
  rw [hE] at hw
  obtain ⟨hval, ⟨⟨ha, hx, hy, hsp, hpc, hu⟩, hm⟩⟩ := hw
  simp [instrCPX, hE, updateFlagZ, updateFlagN]
  exact ⟨⟨ha, hx, hy, hsp, hpc, hu⟩, hm⟩

theorem instrCPY_wf (mode : Mode) (s : CPU) (h : CpuWF s) :
    CpuWF (instrCPY mode s).2 := by
  have hw := fetchOperand_wf mode s h
  rcases hE : fetchOperand mode s with ⟨val, crossed, s1⟩
  rw [hE] at hw
  obtain ⟨hval, ⟨⟨ha, hx, hy, hsp, hpc, hu⟩, hm⟩⟩ := hw
  simp [instrCPY, hE, updateFlagZ, updateFlagN]
  exact ⟨⟨ha, hx, hy, hsp, hpc, hu⟩, hm⟩

theorem instrBIT_wf (mode : Mode) (s : CPU) (h : CpuWF s) :
    CpuWF (instrBIT mode s).2 := by
  have hw := fetchOperand_wf mode s h
  rcases hE : fetchOperand mode s with ⟨val, crossed, s1⟩
  rw [hE] at hw
  obtain ⟨hval, ⟨⟨ha, hx, hy, hsp, hpc, hu⟩, hm⟩⟩ := hw
  simp [instrBIT, hE, updateFlagZ, updateFlagN]
  exact ⟨⟨ha, hx, hy, hsp, hpc, hu⟩, hm⟩

theorem instrSTA_wf (mode : Mode) (s : CPU) (h : CpuWF s) :
    CpuWF (instrSTA mode s).2 := by
  have hw := modeExec_wf mode s h
  rcases hE : modeExec mode s with ⟨addr, crossed, s1⟩
  rw [hE] at hw
  obtain ⟨hr, hm⟩ := hw
  simp [instrSTA, hE]
  exact ⟨hr, busWrite_wf hm _ _⟩

theorem instrSTX_wf (mode : Mode) (s : CPU) (h : CpuWF s) :
    CpuWF (instrSTX mode s).2 := by
  have hw := modeExec_wf mode s h
  rcases hE : modeExec mode s with ⟨addr, crossed, s1⟩
  rw [hE] at hw
  obtain ⟨hr, hm⟩ := hw
  simp [instrSTX, hE]
  exact ⟨hr, busWrite_wf hm _ _⟩

theorem instrSTY_wf (mode : Mode) (s : CPU) (h : CpuWF s) :
    CpuWF (instrSTY mode s).2 := by
  have hw := modeExec_wf mode s h
  rcases hE : modeExec mode s with ⟨addr, crossed, s1⟩
  rw [hE] at hw
  obtain ⟨hr, hm⟩ := hw
  simp [instrSTY, hE]
  exact ⟨hr, busWrite_wf hm _ _⟩

theorem instrINC_wf (mode : Mode) (s : CPU) (h : CpuWF s) :
    CpuWF (instrINC mode s).2 := by
  have hw := modeExec_wf mode s h
  rcases hE : modeExec mode s with ⟨addr, crossed, s1⟩
  rw [hE] at hw
  obtain ⟨⟨ha, hx, hy, hsp, hpc, hu⟩, hm⟩ := hw
  simp [instrINC, hE, updateFlagZ, updateFlagN]
  exact ⟨⟨ha, hx, hy, hsp, hpc, hu⟩, busWrite_wf hm _ _⟩

theorem instrDEC_wf (mode : Mode) (s : CPU) (h : CpuWF s) :
    CpuWF (instrDEC mode s).2 := by
  have hw := modeExec_wf mode s h
  rcases hE : modeExec mode s with ⟨addr, crossed, s1⟩
  rw [hE] at hw
  obtain ⟨⟨ha, hx, hy, hsp, hpc, hu⟩, hm⟩ := hw
  simp [instrDEC, hE, updateFlagZ, updateFlagN]
  exact ⟨⟨ha, hx, hy, hsp, hpc, hu⟩, busWrite_wf hm _ _⟩

theorem instrASL_wf (mode : Mode) (s : CPU) (h : CpuWF s) :
    CpuWF (instrASL mode s).2 := by
  by_cases hacc : mode = Mode.ACC
  · obtain ⟨⟨ha, hx, hy, hsp, hpc, hu⟩, hm⟩ := h
    simp [instrASL, hacc, updateFlagZ, updateFlagN]
    exact ⟨⟨land_ff_lt _, hx, hy, hsp, hpc, hu⟩, hm⟩
  · have hw := modeExec_wf mode s h
    rcases hE : modeExec mode s with ⟨addr, crossed, s1⟩
    rw [hE] at hw
    obtain ⟨⟨ha, hx, hy, hsp, hpc, hu⟩, hm⟩ := hw
    simp [instrASL, hacc, hE, updateFlagZ, updateFlagN]
    exact ⟨⟨ha, hx, hy, hsp, hpc, hu⟩, busWrite_wf hm _ _⟩

theorem instrLSR_wf (mode : Mode) (s : CPU) (h : CpuWF s) :
    CpuWF (instrLSR mode s).2 := by
  by_cases hacc : mode = Mode.ACC
  · obtain ⟨⟨ha, hx, hy, hsp, hpc, hu⟩, hm⟩ := h
    simp [instrLSR, hacc, updateFlagZ, updateFlagN]
    exact ⟨⟨land_ff_lt _, hx, hy, hsp, hpc, hu⟩, hm⟩
  · have hw := modeExec_wf mode s h
    rcases hE : modeExec mode s with ⟨addr, crossed, s1⟩
    rw [hE] at hw
    obtain ⟨⟨ha, hx, hy, hsp, hpc, hu⟩, hm⟩ := hw
    simp [instrLSR, hacc, hE, updateFlagZ, updateFlagN]
    exact ⟨⟨ha, hx, hy, hsp, hpc, hu⟩, busWrite_wf hm _ _⟩

theorem instrROL_wf (mode : Mode) (s : CPU) (h : CpuWF s) :
    CpuWF (instrROL mode s).2 := by
  by_cases hacc : mode = Mode.ACC
  · obtain ⟨⟨ha, hx, hy, hsp, hpc, hu⟩, hm⟩ := h
    simp [instrROL, hacc, updateFlagZ, updateFlagN]
    refine ⟨⟨or_ff_lt (land_ff_lt _) ?_, hx, hy, hsp, hpc, hu⟩, hm⟩
    have : s.regs.c &&& 1 ≤ 1 := Nat.and_le_right
    omega
  · have hw := modeExec_wf mode s h
    rcases hE : modeExec mode s with ⟨addr, crossed, s1⟩
    rw [hE] at hw
    obtain ⟨⟨ha, hx, hy, hsp, hpc, hu⟩, hm⟩ := hw
    simp [instrROL, hacc, hE, updateFlagZ, updateFlagN]
    exact ⟨⟨ha, hx, hy, hsp, hpc, hu⟩, busWrite_wf hm _ _⟩

theorem instrROR_wf (mode : Mode) (s : CPU) (h : CpuWF s) :
    CpuWF (instrROR mode s).2 := by
  by_cases hacc : mode = Mode.ACC
  · obtain ⟨⟨ha, hx, hy, hsp, hpc, hu⟩, hm⟩ := h
    simp [instrROR, hacc, updateFlagZ, updateFlagN]
    exact ⟨⟨land_ff_lt _, hx, hy, hsp, hpc, hu⟩, hm⟩
  · have hw := modeExec_wf mode s h
    rcases hE : modeExec mode s with ⟨addr, crossed, s1⟩
    rw [hE] at hw
    obtain ⟨⟨ha, hx, hy, hsp, hpc, hu⟩, hm⟩ := hw
    simp [instrROR, hacc, hE, updateFlagZ, updateFlagN]
    exact ⟨⟨ha, hx, hy, hsp, hpc, hu⟩, busWrite_wf hm _ _⟩

theorem instrJMP_wf (mode : Mode) (s : CPU) (h : CpuWF s) :
    CpuWF (instrJMP mode s).2 := by
  have hw := modeExec_wf mode s h
  have haddr := modeExec_addr_lt mode s h
  rcases hE : modeExec mode s with ⟨addr, crossed, s1⟩
  rw [hE] at hw haddr
  obtain ⟨⟨ha, hx, hy, hsp, hpc, hu⟩, hm⟩ := hw
  simp [instrJMP, hE]
  exact ⟨⟨ha, hx, hy, hsp, haddr, hu⟩, hm⟩

theorem instrJSR_wf (mode : Mode) (s : CPU) (h : CpuWF s) :
    CpuWF (instrJSR mode s).2 := by
  have hw := modeExec_wf mode s h
  have haddr := modeExec_addr_lt mode s h
  rcases hE : modeExec mode s with ⟨addr, crossed, s1⟩
  rw [hE] at hw haddr
  simp [instrJSR, hE]
  have hp := pushWord_wf hw (sub1Mask16 s1.regs.pc)
  obtain ⟨⟨ha, hx, hy, hsp, hpc, hu⟩, hm⟩ := hp
  exact ⟨⟨ha, hx, hy, hsp, haddr, hu⟩, hm⟩

theorem instrRTS_wf (s : CPU) (h : CpuWF s) : CpuWF (instrRTS s).2 := by
  have hw := popWord_wf h
  rcases hE : popWord s with ⟨addr, s1⟩
  rw [hE] at hw
  obtain ⟨haddr, ⟨⟨ha, hx, hy, hsp, hpc, hu⟩, hm⟩⟩ := hw
  simp [instrRTS, hE]
  exact ⟨⟨ha, hx, hy, hsp, land_ffff_lt _, hu⟩, hm⟩

theorem instrRTI_wf (s : CPU) (h : CpuWF s) : CpuWF (instrRTI s).2 := by
  obtain ⟨⟨ha, hx, hy, hsp, hpc, hu⟩, hm⟩ := h
  simp [instrRTI, setStatusByte]
  exact ⟨⟨ha, hx, hy, land_ff_lt _, or_shl8_lt (hm _) (hm _), rfl⟩, hm⟩

theorem instrPHA_wf (s : CPU) (h : CpuWF s) : CpuWF (instrPHA s).2 :=
  pushByte_wf h _

theorem instrPHP_wf (s : CPU) (h : CpuWF s) : CpuWF (instrPHP s).2 :=
  pushByte_wf h _

theorem instrPLA_wf (s : CPU) (h : CpuWF s) : CpuWF (instrPLA s).2 := by
  have hw := popByte_wf h
  rcases hE : popByte s with ⟨val, s1⟩
  rw [hE] at hw
  obtain ⟨hval, ⟨⟨ha, hx, hy, hsp, hpc, hu⟩, hm⟩⟩ := hw
  simp [instrPLA, hE, updateFlagZ, updateFlagN]
  exact ⟨⟨hval, hx, hy, hsp, hpc, hu⟩, hm⟩

theorem instrPLP_wf (s : CPU) (h : CpuWF s) : CpuWF (instrPLP s).2 := by
  have hw := popByte_wf h
  rcases hE : popByte s with ⟨val, s1⟩
  rw [hE] at hw
  obtain ⟨hval, ⟨hr, hm⟩⟩ := hw
  simp [instrPLP, hE]
  exact ⟨setStatusByte_wf hr _, hm⟩

theorem instrBRK_wf (s : CPU) (h : CpuWF s) : CpuWF (instrBRK s).2 := by
  obtain ⟨⟨ha, hx, hy, hsp, hpc, hu⟩, hm⟩ := h
  have h1 : CpuWF { s with regs := { s.regs with
      pc := (s.regs.pc + 1) &&& 0xFFFF, i := 1 } } :=
    ⟨⟨ha, hx, hy, hsp, land_ffff_lt _, hu⟩, hm⟩
  have h2 := pushWord_wf h1 ((s.regs.pc + 1) &&& 0xFFFF)
  have h3 := pushByte_wf h2
    (getStatusByte { s.regs with pc := (s.regs.pc + 1) &&& 0xFFFF, i := 1 } true)
  obtain ⟨⟨ha3, hx3, hy3, hsp3, hpc3, hu3⟩, hm3⟩ := h3
  simp only [instrBRK]
  exact ⟨⟨ha3, hx3, hy3, hsp3, busReadWord_lt hm3 _, hu3⟩, hm3⟩

/-- Register-transfer, flag and trivial instructions preserve WF. -/
theorem execInstr_wf (instr : Instr) (mode : Mode) (s : CPU) (h : CpuWF s) :
    CpuWF (execInstr instr mode s).2 := by
  obtain ⟨⟨ha, hx, hy, hsp, hpc, hu⟩, hm⟩ := h
  have h' : CpuWF s := ⟨⟨ha, hx, hy, hsp, hpc, hu⟩, hm⟩
  cases instr
  case LDA => exact instrLDA_wf mode s h'
  case LDX => exact instrLDX_wf mode s h'
  case LDY => exact instrLDY_wf mode s h'
  case STA => exact instrSTA_wf mode s h'
  case STX => exact instrSTX_wf mode s h'
  case STY => exact instrSTY_wf mode s h'
  case ADC => exact instrADC_wf mode s h'
  case SBC => exact instrSBC_wf mode s h'
  case AND => exact instrAND_wf mode s h'
  case ORA => exact instrORA_wf mode s h'
  case EOR => exact instrEOR_wf mode s h'
  case ASL => exact instrASL_wf mode s h'
  case LSR => exact instrLSR_wf mode s h'
  case ROL => exact instrROL_wf mode s h'
  case ROR => exact instrROR_wf mode s h'
  case INC => exact instrINC_wf mode s h'
  case DEC => exact instrDEC_wf mode s h'
  case INX =>
    simp [execInstr, instrINX, updateFlagZ, updateFlagN]
    exact ⟨⟨ha, land_ff_lt _, hy, hsp, hpc, hu⟩, hm⟩
  case INY =>
    simp [execInstr, instrINY, updateFlagZ, updateFlagN]
    exact ⟨⟨ha, hx, land_ff_lt _, hsp, hpc, hu⟩, hm⟩
  case DEX =>
    simp [execInstr, instrDEX, updateFlagZ, updateFlagN]
    exact ⟨⟨ha, sub1Mask8_lt _, hy, hsp, hpc, hu⟩, hm⟩
  case DEY =>
    simp [execInstr, instrDEY, updateFlagZ, updateFlagN]
    exact ⟨⟨ha, hx, sub1Mask8_lt _, hsp, hpc, hu⟩, hm⟩
  case PHA => exact instrPHA_wf s h'
  case PLA => exact instrPLA_wf s h'
  case PHP => exact instrPHP_wf s h'
  case PLP => exact instrPLP_wf s h'
  case JMP => exact instrJMP_wf mode s h'
  case JSR => exact instrJSR_wf mode s h'
  case RTS => exact instrRTS_wf s h'
  case RTI => exact instrRTI_wf s h'
  case BCC =>
    have hw := modeExec_wf mode s h'
    rcases hE : modeExec mode s with ⟨addr, crossed, s1⟩
    rw [hE] at hw
    simp [execInstr, instrBCC, hE]
    exact branchOn_wf _ hw
  case BCS =>
    have hw := modeExec_wf mode s h'
    rcases hE : modeExec mode s with ⟨addr, crossed, s1⟩
    rw [hE] at hw
    simp [execInstr, instrBCS, hE]
    exact branchOn_wf _ hw
  case BEQ =>
    have hw := modeExec_wf mode s h'
    rcases hE : modeExec mode s with ⟨addr, crossed, s1⟩
    rw [hE] at hw
    simp [execInstr, instrBEQ, hE]
    exact branchOn_wf _ hw
  case BMI =>
    have hw := modeExec_wf mode s h'
    rcases hE : modeExec mode s with ⟨addr, crossed, s1⟩
    rw [hE] at hw
    simp [execInstr, instrBMI, hE]
    exact branchOn_wf _ hw
  case BNE =>
    have hw := modeExec_wf mode s h'
    rcases hE : modeExec mode s with ⟨addr, crossed, s1⟩
    rw [hE] at hw
    simp [execInstr, instrBNE, hE]
    exact branchOn_wf _ hw
  case BPL =>
    have hw := modeExec_wf mode s h'
    rcases hE : modeExec mode s with ⟨addr, crossed, s1⟩
    rw [hE] at hw
    simp [execInstr, instrBPL, hE]
    exact branchOn_wf _ hw
  case BVC =>
    have hw := modeExec_wf mode s h'
    rcases hE : modeExec mode s with ⟨addr, crossed, s1⟩
    rw [hE] at hw
    simp [execInstr, instrBVC, hE]
    exact branchOn_wf _ hw
  case BVS =>
    have hw := modeExec_wf mode s h'
    rcases hE : modeExec mode s with ⟨addr, crossed, s1⟩
    rw [hE] at hw
    simp [execInstr, instrBVS, hE]
    exact branchOn_wf _ hw
  case CMP => exact instrCMP_wf mode s h'
  case CPX => exact instrCPX_wf mode s h'
  case CPY => exact instrCPY_wf mode s h'
  case BIT => exact instrBIT_wf mode s h'
  case TAX =>
    simp [execInstr, instrTAX, updateFlagZ, updateFlagN]
    exact ⟨⟨ha, ha, hy, hsp, hpc, hu⟩, hm⟩
  case TXA =>
    simp [execInstr, instrTXA, updateFlagZ, updateFlagN]
    exact ⟨⟨hx, hx, hy, hsp, hpc, hu⟩, hm⟩
  case TAY =>
    simp [execInstr, instrTAY, updateFlagZ, updateFlagN]
    exact ⟨⟨ha, hx, ha, hsp, hpc, hu⟩, hm⟩
  case TYA =>
    simp [execInstr, instrTYA, updateFlagZ, updateFlagN]
    exact ⟨⟨hy, hx, hy, hsp, hpc, hu⟩, hm⟩
  case TSX =>
    simp [execInstr, instrTSX, updateFlagZ, updateFlagN]
    exact ⟨⟨ha, hsp, hy, hsp, hpc, hu⟩, hm⟩
  case TXS =>
    simp [execInstr, instrTXS]
    exact ⟨⟨ha, hx, hy, hx, hpc, hu⟩, hm⟩
  case CLC =>
    simp [execInstr, instrCLC]
    exact ⟨⟨ha, hx, hy, hsp, hpc, hu⟩, hm⟩
  case SEC =>
    simp [execInstr, instrSEC]
    exact ⟨⟨ha, hx, hy, hsp, hpc, hu⟩, hm⟩
  case CLI =>
    simp [execInstr, instrCLI]
    exact ⟨⟨ha, hx, hy, hsp, hpc, hu⟩, hm⟩
  case SEI =>
    simp [execInstr, instrSEI]
    exact ⟨⟨ha, hx, hy, hsp, hpc, hu⟩, hm⟩
  case CLD =>
    simp [execInstr, instrCLD]
    exact ⟨⟨ha, hx, hy, hsp, hpc, hu⟩, hm⟩
  case SED =>
    simp [execInstr, instrSED]
    exact ⟨⟨ha, hx, hy, hsp, hpc, hu⟩, hm⟩
  case CLV =>
    simp [execInstr, instrCLV]
    exact ⟨⟨ha, hx, hy, hsp, hpc, hu⟩, hm⟩
  case BRK => exact instrBRK_wf s h'
  case NOP =>
    simp [execInstr, instrNOP]
    exact h'
  case XXX =>
    simp [execInstr, instrXXX]
    exact h'

/-! ### Claim C5: register/width invariants across `clock` -/

/-- C5: for every well-formed CPU state (A, X, Y, SP bytes, PC a 16-bit
word, U = 1, byte-valued RAM), executing any single instruction via
`clock` — whatever the bus contents, and hence whatever opcode and operands
are fetched — leaves A, X, Y, SP in [0,255], PC in [0,65535], and U = 1. -/
theorem clock_preserves_register_widths (s : CPU) (h : CpuWF s) :
    RegsWF (clock s).2.regs := by
  by_cases hh : s.halted
  · simp [clock, hh]
    exact h.1
  · have hf := fetchByte_wf h
    rcases hE : fetchByte s with ⟨op, s1⟩
    rw [hE] at hf
    obtain ⟨hop, h1⟩ := hf
    have h1' : CpuWF { s1 with opcode := op } := ⟨h1.1, h1.2⟩
    rcases hL : lookup op with ⟨instr, mode, cycles⟩
    have h2 := execInstr_wf instr mode { s1 with opcode := op } h1'
    rcases hX : execInstr instr mode { s1 with opcode := op } with ⟨extra, s2⟩
    rw [hX] at h2
    simp [clock, hh, hE, hL, hX]
    exact h2.1

/-- Witness for C5 at the concrete reset state over zeroed RAM. -/
theorem clock_preserves_register_widths_witness :
    CpuWF cpuZero ∧ RegsWF (clock cpuZero).2.regs := by
  have hwf : CpuWF cpuZero :=
    ⟨⟨by decide, by decide, by decide, by decide, by decide, by decide⟩,
      fun a => by show (0 : Nat) < 256; decide⟩
  exact ⟨hwf, clock_preserves_register_widths cpuZero hwf⟩

/-! ### Claim C10: a halted CPU's `clock` is a no-op -/

/-- C10: when `halted` is true, `clock` returns 0 cycles and the state —
registers, flags, cycle counters and the entire bus memory — unchanged:
no opcode fetch, read or write happens. -/
theorem clock_halted_frame (s : CPU) (h : s.halted = true) :
    clock s = (0, s) := by
  simp [clock, h]

/-- Witness for C10 at a concrete halted state. -/
theorem clock_halted_frame_witness :
    cpuHalted.halted = true ∧ clock cpuHalted = (0, cpuHalted) :=
  ⟨rfl, clock_halted_frame cpuHalted rfl⟩

/-! ### Claim C1: status byte pushed by NMI and IRQ -/

/-- C1 (code bug): the status byte that `nmi` (and unmasked `irq`) push has
its B bit (bit 4) equal to 1, not 0: `get_status_byte(pushing=True)` forces
B = 1 even for hardware interrupts, contradicting the `B=0` stated in the
comments at the push sites and the spec.  At the reset state (SP = `$FD`)
the byte lands at `$01FB`; its bit 4 is set in both cases (the U bit,
bit 5, is 1 as specified). -/
theorem nmi_irq_push_b_bit_set :
    ((nmi cpuZero).2.mem 0x1FB) &&& 0x10 = 0x10 ∧
    ((nmi cpuZero).2.mem 0x1FB) &&& 0x20 = 0x20 ∧
    ((irq cpuIrqReady).2.mem 0x1FB) &&& 0x10 = 0x10 := by
  refine ⟨?_, ?_, ?_⟩ <;> decide


/-! ### Claim C6: ADC semantics -/

theorem land255_eq_mod (x : Nat) : x &&& 255 = x % 256 := by
  have := Nat.and_pow_two_sub_one_eq_mod x 8
  norm_num at this
  exact this

theorem land80_ne_zero_iff (x : Nat) : x &&& 0x80 ≠ 0 ↔ x.testBit 7 = true := by
  have h := Nat.and_two_pow x 7
  norm_num at h
  rw [h]
  cases hx : x.testBit 7 <;> simp

theorem testBit7_mod256 (x : Nat) : (x % 256).testBit 7 = x.testBit 7 := by
  have h : x % 256 = x % 2 ^ 8 := by norm_num
  rw [h, Nat.testBit_mod_two_pow]
  simp

theorem testBit7_xor255 (x : Nat) : (x ^^^ 0xFF).testBit 7 = ! x.testBit 7 := by
  rw [Nat.testBit_xor, show Nat.testBit 255 7 = true from by decide]
  cases hx : x.testBit 7 <;> rfl

/-- The source's masked overflow formula agrees with the sign-comparison
characterisation in the spec. -/
theorem overflow_formula_iff (a m temp : Nat) :
    ((((a ^^^ m) ^^^ 0xFF) &&& (a ^^^ temp)) &&& 0x80 ≠ 0) ↔
      (a.testBit 7 = m.testBit 7 ∧ ¬ a.testBit 7 = temp.testBit 7) := by
  rw [land80_ne_zero_iff, Nat.testBit_and, testBit7_xor255, Nat.testBit_xor,
    Nat.testBit_xor]
  cases ha : a.testBit 7 <;> cases hm : m.testBit 7 <;>
    cases ht : temp.testBit 7 <;> simp

/-- C6: `ADC` (here in the immediate mode, whose operand is the byte at PC)
stores `(A + M + C) mod 256` in the accumulator, sets C iff
`A + M + C > 255`, sets V iff the sign bits of A and M agree but differ
from the sign bit of the 8-bit result, and sets Z and N from the low 8
bits.  In particular, `ADC` of `$01` to `A = $7F` with `C = 0` yields
`A = $80`, `V = 1`, `N = 1`, `Z = 0`, `C = 0`. -/
theorem adc_spec (s : CPU) :
    ((instrADC Mode.IMM s).2.regs.a =
        (s.regs.a + busRead s.mem s.regs.pc + s.regs.c) % 256 ∧
      (instrADC Mode.IMM s).2.regs.c =
        (if 255 < s.regs.a + busRead s.mem s.regs.pc + s.regs.c then 1 else 0) ∧
      (instrADC Mode.IMM s).2.regs.v =
        (if s.regs.a.testBit 7 = (busRead s.mem s.regs.pc).testBit 7 ∧
            ¬ s.regs.a.testBit 7 =
              ((s.regs.a + busRead s.mem s.regs.pc + s.regs.c) % 256).testBit 7
         then 1 else 0) ∧
      (instrADC Mode.IMM s).2.regs.z =
        (if (s.regs.a + busRead s.mem s.regs.pc + s.regs.c) % 256 = 0
         then 1 else 0) ∧
      (instrADC Mode.IMM s).2.regs.n =
        (if ((s.regs.a + busRead s.mem s.regs.pc + s.regs.c) % 256).testBit 7
         then 1 else 0)) ∧
    ((instrADC Mode.IMM cpuAdc7F).2.regs.a = 0x80 ∧
      (instrADC Mode.IMM cpuAdc7F).2.regs.v = 1 ∧
      (instrADC Mode.IMM cpuAdc7F).2.regs.n = 1 ∧
      (instrADC Mode.IMM cpuAdc7F).2.regs.z = 0 ∧
      (instrADC Mode.IMM cpuAdc7F).2.regs.c = 0) := by
  constructor
  · simp only [instrADC, fetchOperand, modeExec, updateFlagZ, updateFlagN]
    refine ⟨land255_eq_mod _, trivial, ?_, ?_, ?_⟩
    · simp only [overflow_formula_iff, testBit7_mod256]
    · simp only [land255_eq_mod]
    · simp only [land80_ne_zero_iff, testBit7_mod256]
  · refine ⟨?_, ?_, ?_, ?_, ?_⟩ <;> decide


/-! ### Claim C9: JSR/RTS round trip -/

theorem land65535_eq_mod (x : Nat) : x &&& 65535 = x % 65536 := by
  have := Nat.and_pow_two_sub_one_eq_mod x 16
  norm_num at this
  exact this

theorem shl8_or_eq_add {h l : Nat} (hl : l < 256) : (h <<< 8) ||| l = h * 256 + l := by
  have h2 : l < 2 ^ 8 := by omega
  rw [Nat.shiftLeft_eq, Nat.mul_comm h (2 ^ 8), ← Nat.mul_add_lt_is_or h2 h]

/-- Reading through a write: the region of `Cpu.py`'s flat bus. -/
theorem busRead_busWrite (m : Mem) (a v b : Nat) :
    busRead (busWrite m a v) b =
      if b % 65536 = a % 65536 then v % 256 else busRead m b := by
  unfold busRead busWrite
  simp only [land65535_eq_mod, land255_eq_mod]

/-- After pushing two bytes (high at `$0100+SP`, low at `$0100+SP-1`), the
two stack cells read back the pushed bytes. -/
theorem stack_two_push_reads (m : Mem) (sp v1 v2 : Nat) (_hsp : sp < 256) :
    busRead (busWrite (busWrite m (256 + sp) v1) (256 + (sp + 255) % 256) v2)
        (256 + (sp + 255) % 256) = v2 % 256 ∧
    busRead (busWrite (busWrite m (256 + sp) v1) (256 + (sp + 255) % 256) v2)
        (256 + sp) = v1 % 256 := by
  constructor
  · rw [busRead_busWrite, if_pos rfl]
  · rw [busRead_busWrite, if_neg (by omega), busRead_busWrite, if_pos rfl]

set_option maxRecDepth 4096 in
/-- C9: from any well-formed state whose next instruction is a `JSR` whose
target holds an `RTS` (an empty subroutine, the "run until the matching
RTS" of the claim), executing the JSR and then the RTS restores SP to its
value before the JSR and sets PC to the byte just after the 3-byte JSR.
The hypotheses `hne1`/`hne2` say the subroutine entry point is not one of
the two stack cells the JSR itself writes. -/
theorem jsr_rts_pair (s : CPU) (h : CpuWF s) (hh : s.halted = false)
    (hop : s.mem s.regs.pc = 0x20) (t : Nat)
    (ht : t = s.mem ((s.regs.pc + 2) % 65536) * 256 + s.mem ((s.regs.pc + 1) % 65536))
    (hrts : s.mem t = 0x60)
    (hne1 : t ≠ 0x100 + s.regs.sp)
    (hne2 : t ≠ 0x100 + (s.regs.sp + 255) % 256) :
    (clock (clock s).2).2.regs.sp = s.regs.sp ∧
    (clock (clock s).2).2.regs.pc = (s.regs.pc + 3) % 65536 := by
  obtain ⟨⟨ha, hx, hy, hsp, hpc, hu⟩, hm⟩ := h
  have hop' : busRead s.mem s.regs.pc = 0x20 := by
    rw [busRead, land65535_eq_mod, Nat.mod_eq_of_lt hpc, hop]
  have hlkJ : lookup 0x20 = (Instr.JSR, Mode.ABS, 6) := rfl
  have hC1 : (clock s).2 = {
      regs := {
        a := s.regs.a, x := s.regs.x, y := s.regs.y,
        sp := (s.regs.sp + 255 &&& 255) + 255 &&& 255,
        pc := busRead s.mem ((s.regs.pc + 1 &&& 65535) + 1 &&& 65535) <<< 8 |||
          busRead s.mem (s.regs.pc + 1 &&& 65535),
        c := s.regs.c, z := s.regs.z, i := s.regs.i, d := s.regs.d, b := s.regs.b,
        u := s.regs.u, v := s.regs.v, n := s.regs.n },
      mem := busWrite (busWrite s.mem (256 + s.regs.sp)
          (sub1Mask16 (((s.regs.pc + 1 &&& 65535) + 1 &&& 65535) + 1 &&& 65535) >>> 8 &&& 255 &&& 255))
        (256 + (s.regs.sp + 255 &&& 255))
        (sub1Mask16 (((s.regs.pc + 1 &&& 65535) + 1 &&& 65535) + 1 &&& 65535) &&& 255 &&& 255),
      halted := false, cycles := 6 + 0, totalCycles := s.totalCycles + (6 + 0),
      addrRel := s.addrRel, addrAbs := s.addrAbs, opcode := 32 } := by
    simp only [clock, hh, Bool.false_eq_true, if_false, fetchByte, hop', hlkJ]
    simp only [execInstr, instrJSR, modeExec, fetchWord, fetchByte, pushWord, pushByte]
  have hLB : busRead s.mem (s.regs.pc + 1 &&& 65535) = s.mem ((s.regs.pc + 1) % 65536) := by
    rw [busRead]
    exact congrArg s.mem (by simp only [land65535_eq_mod]; omega)
  have hHB : busRead s.mem ((s.regs.pc + 1 &&& 65535) + 1 &&& 65535) =
      s.mem ((s.regs.pc + 2) % 65536) := by
    rw [busRead]
    exact congrArg s.mem (by simp only [land65535_eq_mod]; omega)
  have htv : busRead s.mem ((s.regs.pc + 1 &&& 65535) + 1 &&& 65535) <<< 8 |||
      busRead s.mem (s.regs.pc + 1 &&& 65535) = t := by
    rw [hLB, hHB, shl8_or_eq_add (hm _), ht]
  have hra : sub1Mask16 (((s.regs.pc + 1 &&& 65535) + 1 &&& 65535) + 1 &&& 65535) =
      (s.regs.pc + 2) % 65536 := by
    unfold sub1Mask16
    simp only [land65535_eq_mod]
    omega
  have hspA : s.regs.sp + 255 &&& 255 = (s.regs.sp + 255) % 256 := land255_eq_mod _
  have ht16 : t < 65536 := by
    have h1 := hm ((s.regs.pc + 2) % 65536)
    have h2 := hm ((s.regs.pc + 1) % 65536)
    omega
  have hfetch2 : ∀ v1 v2, busRead (busWrite (busWrite s.mem (256 + s.regs.sp) v1)
      (256 + (s.regs.sp + 255) % 256) v2) t = 0x60 := by
    intro v1 v2
    rw [busRead_busWrite, if_neg (by omega), busRead_busWrite, if_neg (by omega),
      busRead, land65535_eq_mod, Nat.mod_eq_of_lt ht16, hrts]
  have hlkR : lookup 0x60 = (Instr.RTS, Mode.IMP, 6) := rfl
  rw [hC1, htv, hra, hspA]
  simp only [clock, fetchByte, Bool.false_eq_true, if_false]
  rw [hfetch2]
  simp only [hlkR, execInstr, instrRTS, popWord, popByte]
  simp only [land255_eq_mod]
  have hsp1 : (((s.regs.sp + 255) % 256 + 255) % 256 + 1) % 256 = (s.regs.sp + 255) % 256 := by
    omega
  have hsp2 : ((s.regs.sp + 255) % 256 + 1) % 256 = s.regs.sp := by omega
  rw [hsp1, hsp2]
  obtain ⟨hrd2, hrd1⟩ := stack_two_push_reads s.mem s.regs.sp
    ((((s.regs.pc + 2) % 65536) >>> 8) % 256 % 256)
    (((s.regs.pc + 2) % 65536) % 256 % 256) hsp
  rw [hrd2, hrd1]
  constructor
  · rfl
  · simp only [land65535_eq_mod, land255_eq_mod, Nat.shiftRight_eq_div_pow]
    rw [shl8_or_eq_add (by omega)]
    omega


/-- Witness for C9: `JSR $8010` at `$0000` followed by the `RTS` at `$8010`
returns with SP restored and PC = `$0003`. -/
theorem jsr_rts_pair_witness :
    cpuJsr.halted = false ∧ cpuJsr.mem cpuJsr.regs.pc = 0x20 ∧
    cpuJsr.mem 0x8010 = 0x60 ∧
    (clock (clock cpuJsr).2).2.regs.sp = cpuJsr.regs.sp ∧
    (clock (clock cpuJsr).2).2.regs.pc = (cpuJsr.regs.pc + 3) % 65536 := by
  have hmem : MemWF cpuJsr.mem := by
    intro a
    show memJsr a < 256
    unfold memJsr
    split_ifs <;> norm_num
  have hwf : CpuWF cpuJsr :=
    ⟨⟨by decide, by decide, by decide, by decide, by decide, by decide⟩, hmem⟩
  have h := jsr_rts_pair cpuJsr hwf rfl (by decide) 0x8010 (by decide) (by decide)
    (by decide) (by decide)
  exact ⟨rfl, by decide, by decide, h.1, h.2⟩


/-! ### Claim C7: bus region dispatch -/

theorem land_ffff_of_lt {x : Nat} (h : x < 65536) : x &&& 65535 = x := by
  rw [land65535_eq_mod]
  exact Nat.mod_eq_of_lt h

/-- C7: for every 16-bit address and both directions, `Bus` dispatches to
the first registered region covering the address that supplies a handler
for that direction; if covering regions exist but none supplies one, the
lookup falls back to the first covering region, whose missing handler
falls through to the 64 KiB RAM backing store; and if no region covers the
address, the RAM backing store is used. -/
theorem bus_region_dispatch {R W : Type} (ram : Mem) (address value : Nat)
    (ha : address < 65536) :
    (∀ (pre post : List (Region (Nat → Nat) W)) (r : Region (Nat → Nat) W)
        (f : Nat → Nat),
      (∀ r' ∈ pre, ¬ (covers r' address = true ∧ r'.reader.isSome = true)) →
      covers r address = true → r.reader = some f →
      regionBusRead ⟨ram, pre ++ r :: post⟩ address = f address &&& 0xFF) ∧
    (∀ regions : List (Region (Nat → Nat) W),
      (∀ r' ∈ regions, covers r' address = true → r'.reader = none) →
      regionBusRead ⟨ram, regions⟩ address = ram address) ∧
    (∀ regions : List (Region (Nat → Nat) W),
      (∀ r' ∈ regions, covers r' address = false) →
      regionBusRead ⟨ram, regions⟩ address = ram address) ∧
    (∀ (pre post : List (Region R W)) (r : Region R W) (w : W),
      (∀ r' ∈ pre, ¬ (covers r' address = true ∧ r'.writer.isSome = true)) →
      covers r address = true → r.writer = some w →
      regionBusWrite ⟨ram, pre ++ r :: post⟩ address value =
        WriteOutcome.handler w address (value &&& 0xFF)) ∧
    (∀ regions : List (Region R W),
      (∀ r' ∈ regions, covers r' address = true → r'.writer = none) →
      regionBusWrite ⟨ram, regions⟩ address value =
        WriteOutcome.toRam (fun a => if a = address then value &&& 0xFF else ram a)) ∧
    (∀ regions : List (Region R W),
      (∀ r' ∈ regions, covers r' address = false) →
      regionBusWrite ⟨ram, regions⟩ address value =
        WriteOutcome.toRam (fun a => if a = address then value &&& 0xFF else ram a)) := by
  refine ⟨?_, ?_, ?_, ?_, ?_, ?_⟩
  · intro pre post r f hpre hcov hrd
    unfold regionBusRead findRegion
    simp only [land_ffff_of_lt ha]
    have hnone : pre.find? (fun r' => covers r' address && r'.reader.isSome) = none := by
      rw [List.find?_eq_none]
      intro x hx
      have := hpre x hx
      simp only [Bool.and_eq_true]
      tauto
    have hfind : (pre ++ r :: post).find?
        (fun r' => covers r' address && r'.reader.isSome) = some r := by
      rw [List.find?_append, hnone, Option.none_or, List.find?_cons_of_pos]
      simp [hcov, hrd]
    rw [hfind]
    simp [hrd]
  · intro regions hno
    unfold regionBusRead findRegion
    simp only [land_ffff_of_lt ha]
    have hnone : regions.find? (fun r' => covers r' address && r'.reader.isSome) = none := by
      rw [List.find?_eq_none]
      intro x hx
      simp only [Bool.and_eq_true, not_and]
      intro hcov
      rw [hno x hx hcov]
      simp
    rw [hnone]
    rcases h2 : regions.find? (fun r' => covers r' address) with _ | r0
    · rfl
    · have hmem := List.mem_of_find?_eq_some h2
      have hcov0 := List.find?_some h2
      simp only [hno r0 hmem hcov0]
  · intro regions hno
    unfold regionBusRead findRegion
    simp only [land_ffff_of_lt ha]
    have hnone : regions.find? (fun r' => covers r' address && r'.reader.isSome) = none := by
      rw [List.find?_eq_none]
      intro x hx
      simp [hno x hx]
    have hnone2 : regions.find? (fun r' => covers r' address) = none := by
      rw [List.find?_eq_none]
      intro x hx
      simp [hno x hx]
    rw [hnone, hnone2]
  · intro pre post r w hpre hcov hwr
    unfold regionBusWrite findRegion
    simp only [land_ffff_of_lt ha]
    have hnone : pre.find? (fun r' => covers r' address && r'.writer.isSome) = none := by
      rw [List.find?_eq_none]
      intro x hx
      have := hpre x hx
      simp only [Bool.and_eq_true]
      tauto
    have hfind : (pre ++ r :: post).find?
        (fun r' => covers r' address && r'.writer.isSome) = some r := by
      rw [List.find?_append, hnone, Option.none_or, List.find?_cons_of_pos]
      simp [hcov, hwr]
    rw [hfind]
    simp [hwr]
  · intro regions hno
    unfold regionBusWrite findRegion
    simp only [land_ffff_of_lt ha]
    have hnone : regions.find? (fun r' => covers r' address && r'.writer.isSome) = none := by
      rw [List.find?_eq_none]
      intro x hx
      simp only [Bool.and_eq_true, not_and]
      intro hcov
      rw [hno x hx hcov]
      simp
    rw [hnone]
    rcases h2 : regions.find? (fun r' => covers r' address) with _ | r0
    · rfl
    · have hmem := List.mem_of_find?_eq_some h2
      have hcov0 := List.find?_some h2
      simp only [hno r0 hmem hcov0]
  · intro regions hno
    unfold regionBusWrite findRegion
    simp only [land_ffff_of_lt ha]
    have hnone : regions.find? (fun r' => covers r' address && r'.writer.isSome) = none := by
      rw [List.find?_eq_none]
      intro x hx
      simp [hno x hx]
    have hnone2 : regions.find? (fun r' => covers r' address) = none := by
      rw [List.find?_eq_none]
      intro x hx
      simp [hno x hx]
    rw [hnone, hnone2]

/-- Witness for C7: a single `[0,10]` region whose reader returns `$107`
serves a read at address 5, masked to the byte `$07`. -/
theorem bus_region_dispatch_witness :
    (5 : Nat) < 65536 ∧ regionBusRead busReg7 5 = 0x07 := by
  refine ⟨by decide, ?_⟩
  have h := (bus_region_dispatch (R := Unit) (W := Unit) (fun _ => 0) 5 0
    (by decide)).1 [] [] reg7 (fun _ => 0x107) (by simp) (by decide) rfl
  simpa using h


/-! ### Claim C3: OAM DMA -/

/-- C3 counterexample: with OAMADDR = 1, the claim says the DMA's first
source byte (CPU address `$0200`, holding 0) lands at OAM index 1; the
code instead stores the byte from `$0201` (holding 1) there, because the
copy always starts at OAM index 0. -/
theorem oam_dma_ignores_oamaddr_cex :
    ppuOamd1.reg2003 = 1 ∧
    (oamDma ppuOamd1 dmaSrc 2).oam 1 ≠ dmaSrc (2 * 0x100) := by
  exact ⟨rfl, by decide⟩

/-- C3 amended: a write of `page` to `$4014` copies the 256 bytes at CPU
addresses `page*0x100 .. page*0x100+0xFF` sequentially into OAM starting
at index 0 — not at OAMADDR, which is left unchanged — with byte `i` going
to OAM index `i`. -/
theorem oam_dma_spec (p : Ppu) (busReadFn : Nat → Nat) (page i : Nat)
    (hi : i < 256) :
    (oamDma p busReadFn page).oam i =
      busReadFn ((((page &&& 0xFF) <<< 8) + i) &&& 0xFFFF) &&& 0xFF ∧
    (oamDma p busReadFn page).reg2003 = p.reg2003 := by
  constructor
  · simp [oamDma, hi]
  · rfl

/-- Witness for C3 (amended) at OAM index 0, page 2. -/
theorem oam_dma_spec_witness :
    (0 : Nat) < 256 ∧
    ((oamDma ppuOamd1 dmaSrc 2).oam 0 =
        dmaSrc ((((2 &&& 0xFF) <<< 8) + 0) &&& 0xFFFF) &&& 0xFF ∧
      (oamDma ppuOamd1 dmaSrc 2).reg2003 = ppuOamd1.reg2003) :=
  ⟨by decide, oam_dma_spec ppuOamd1 dmaSrc 2 0 (by decide)⟩


/-! ### Claim C4: VBlank flag and once-per-frame NMI callback -/

/-- `stepIter` preserves the NMI-count/frame invariant when NMI generation
is enabled. -/
theorem stepIter_inv (ctrl : Nat) (hc : ctrl &&& 0x80 ≠ 0) (clocks : Nat) (p : Ppu)
    (h : PpuInv ctrl p) : PpuInv ctrl (stepIter clocks p) := by
  obtain ⟨h260, hfz, hcnt, hctrl, hcb⟩ := h
  simp only [stepIter, PpuInv]
  split_ifs <;> (try simp_all) <;>
    first
      | omega
      | (refine ⟨fun hs => hfz (by omega), ?_⟩
         omega)


/-- Setting bit 7 leaves bit 7 set. -/
theorem or128_land128_ne (x : Nat) : (x ||| 0x80) &&& 0x80 ≠ 0 := by
  refine (land80_ne_zero_iff _).mpr ?_
  rw [Nat.testBit_or, show Nat.testBit 128 7 = true from by decide]
  simp

/-- Across one scanline iteration: either the scanline is still before
VBlank, or the VBlank flag (PPUSTATUS bit 7) is set. -/
theorem stepIter_vblank_disj (clocks : Nat) (p : Ppu)
    (hp : p.scanline < 241 ∨ (241 ≤ p.scanline ∧ p.reg2002 &&& 0x80 ≠ 0)) :
    (stepIter clocks p).scanline < 241 ∨
      (241 ≤ (stepIter clocks p).scanline ∧ (stepIter clocks p).reg2002 &&& 0x80 ≠ 0) := by
  rcases hp with hlt | ⟨hge, hbit⟩ <;>
    (simp only [stepIter]
     split_ifs <;> dsimp only at * <;>
       first
         | omega
         | (left; omega)
         | (right; exact ⟨by omega, or128_land128_ne _⟩))


/-- The scanline loop preserves the invariant. -/
theorem stepLoop_inv (ctrl : Nat) (hc : ctrl &&& 0x80 ≠ 0) (fuel clocks : Nat) :
    ∀ p : Ppu, PpuInv ctrl p → PpuInv ctrl (stepLoop fuel clocks p) := by
  induction fuel with
  | zero => intro p h; exact h
  | succ f ih =>
    intro p h
    simp only [stepLoop]
    split
    · exact ih _ (stepIter_inv ctrl hc clocks p h)
    · exact h

/-- `FullPPU.step` preserves the invariant. -/
theorem stepPpu_inv (ctrl : Nat) (hc : ctrl &&& 0x80 ≠ 0) (p : Ppu) (clocks : Nat)
    (h : PpuInv ctrl p) : PpuInv ctrl (stepPpu p clocks) := by
  unfold stepPpu
  split
  · exact h
  · exact stepLoop_inv ctrl hc _ clocks _ h

/-- Reading `$2002` (which clears the VBlank flag and the pending-NMI
edge) preserves the invariant: in particular it cannot enable a second
callback in the same VBlank period, because the fired edge is only
consulted when the scanline *enters* 241. -/
theorem readStatus_inv (ctrl : Nat) (p : Ppu) (h : PpuInv ctrl p) :
    PpuInv ctrl (ppuReadRegister p 0x2002).2 := by
  obtain ⟨h260, hfz, hcnt, hctrl, hcb⟩ := h
  simp only [ppuReadRegister]
  norm_num
  exact ⟨h260, fun _ => rfl, hcnt, hctrl, hcb⟩

/-- Any event sequence preserves the invariant. -/
theorem runPpu_inv (ctrl : Nat) (hc : ctrl &&& 0x80 ≠ 0) (evs : List PpuEv) :
    ∀ p : Ppu, PpuInv ctrl p → PpuInv ctrl (runPpu evs p) := by
  induction evs with
  | nil => intro p h; exact h
  | cons ev rest ih =>
    intro p h
    cases ev with
    | step n => exact ih _ (stepPpu_inv ctrl hc p n h)
    | readStatus => exact ih _ (readStatus_inv ctrl p h)

/-- If the scanline loop moves the scanline into the VBlank region
(`≥ 241`), PPUSTATUS bit 7 is set afterwards. -/
theorem stepLoop_sets_vblank_bit (clocks : Nat) (fuel : Nat) :
    ∀ p : Ppu, (p.scanline < 241 ∨ (241 ≤ p.scanline ∧ p.reg2002 &&& 0x80 ≠ 0)) →
    241 ≤ (stepLoop fuel clocks p).scanline →
    (stepLoop fuel clocks p).reg2002 &&& 0x80 ≠ 0 := by
  induction fuel with
  | zero =>
    intro p hp hs
    simp only [stepLoop] at hs ⊢
    rcases hp with hlt | ⟨_, hbit⟩
    · omega
    · exact hbit
  | succ f ih =>
    intro p hp hs
    simp only [stepLoop] at hs ⊢
    by_cases hcyc : 341 ≤ p.ppuCycle
    · rw [if_pos hcyc] at hs ⊢
      exact ih _ (stepIter_vblank_disj clocks p hp) hs
    · rw [if_neg hcyc] at hs ⊢
      rcases hp with hlt | ⟨_, hbit⟩
      · omega
      · exact hbit


/-- **C4** (`FullPPU.step`, `FullPPU.ppu_read_register`): starting from a
fresh PPU with PPUCTRL bit 7 set and an NMI callback installed, after any
sequence of `step` calls and `$2002` status reads, the callback has run
exactly once per VBlank entered (`frame` completed frames contribute one
each, plus one more iff the current scanline is in `241..260`); and any
`step` that advances the scanline from below 241 into `241..` leaves
PPUSTATUS bit 7 set. Status reads during VBlank clear the bit and the
pending-NMI edge but never cause a second callback in the same period. -/
theorem ppu_vblank_nmi (ctrl : Nat) (hc : ctrl &&& 0x80 ≠ 0) (evs : List PpuEv) :
    ((runPpu evs (ppuStart ctrl)).nmiCallbackCount =
        (runPpu evs (ppuStart ctrl)).frame +
          (if 241 ≤ (runPpu evs (ppuStart ctrl)).scanline then 1 else 0)) ∧
      ∀ n, (runPpu evs (ppuStart ctrl)).scanline < 241 →
        241 ≤ (stepPpu (runPpu evs (ppuStart ctrl)) n).scanline →
        (stepPpu (runPpu evs (ppuStart ctrl)) n).reg2002 &&& 0x80 ≠ 0 := by
  have h0 : PpuInv ctrl (ppuStart ctrl) := by
    exact ⟨Nat.zero_le _, fun _ => rfl, Or.inl ⟨Nat.succ_pos 240, rfl⟩, rfl, rfl⟩
  obtain ⟨h260, hfz, hcnt, hctrl, hcb⟩ := runPpu_inv ctrl hc evs _ h0
  constructor
  · rcases hcnt with ⟨hlt, hce⟩ | ⟨hge, hce⟩
    · rw [if_neg (by omega)]; omega
    · rw [if_pos hge]; omega
  · intro n hlt hge
    by_cases hn : n = 0
    · subst hn
      have he : stepPpu (runPpu evs (ppuStart ctrl)) 0 = runPpu evs (ppuStart ctrl) := rfl
      rw [he] at hge
      omega
    · simp only [stepPpu, if_neg hn] at hge ⊢
      exact stepLoop_sets_vblank_bit n _ _ (Or.inl hlt) hge

/-- Witness: `ctrl = $80` has bit 7 set; one 400-dot step from the fresh
state satisfies the C4 conclusion. -/
theorem ppu_vblank_nmi_witness :
    ((0x80 : Nat) &&& 0x80 ≠ 0) ∧
      (((runPpu [PpuEv.step 400] (ppuStart 0x80)).nmiCallbackCount =
          (runPpu [PpuEv.step 400] (ppuStart 0x80)).frame +
            (if 241 ≤ (runPpu [PpuEv.step 400] (ppuStart 0x80)).scanline then 1 else 0)) ∧
        ∀ n, (runPpu [PpuEv.step 400] (ppuStart 0x80)).scanline < 241 →
          241 ≤ (stepPpu (runPpu [PpuEv.step 400] (ppuStart 0x80)) n).scanline →
          (stepPpu (runPpu [PpuEv.step 400] (ppuStart 0x80)) n).reg2002 &&& 0x80 ≠ 0) :=
  ⟨by decide, ppu_vblank_nmi 0x80 (by decide) [PpuEv.step 400]⟩

/-! ### Claim C2: branch-offset range handling -/

/-- **C2** (`Assembler._resolve_operand`, RELATIVE branch): an
out-of-range branch offset does **not** raise an error; it is silently
clamped to `-128`/`127` and an operand byte is still produced, so
assembly succeeds and emits output.  No `BranchRangeError` exists
anywhere in the assembler. -/
theorem branch_range_clamped (t c : Int)
    (h : t - (c + 2) < -128 ∨ 127 < t - (c + 2)) :
    resolveOperandRelative t c = if t - (c + 2) < 0 then 128 else 127 := by
  simp only [resolveOperandRelative]
  split_ifs <;> omega

/-- Witness: `BNE TOO_FAR` at address 0 with `TOO_FAR = $012C`
(offset `298`) yields the clamped byte `$7F`; a far-backward branch
yields `$80`. -/
theorem branch_range_clamped_witness :
    (((0x012C : Int) - (0 + 2) < -128 ∨ 127 < (0x012C : Int) - (0 + 2)) ∧
        resolveOperandRelative 0x012C 0 =
          if (0x012C : Int) - (0 + 2) < 0 then 128 else 127) ∧
      resolveOperandRelative 0x012C 0 = 127 ∧
      resolveOperandRelative 0 0x0200 = 0x80 :=
  ⟨⟨by decide, branch_range_clamped 0x012C 0 (by decide)⟩, by decide, by decide⟩

/-- Counterexample to the literal C8 claim: the operand `$012,X` has
numeric value `$012 = 18`, which fits in 8 bits, yet the detector
returns `ABSOLUTE_X`, because for `$`-operands it decides by text length
(`len(value) <= 3`), not by value. -/
theorem detect_zpx_hex_cex :
    detectAddressingMode ['$', '0', '1', '2', ',', 'X'] = AddressingMode.ABSOLUTE_X ∧
      AddressingMode.ABSOLUTE_X ≠ AddressingMode.ZEROPAGE_X ∧
      parseNumber (fun _ => none) ['$', '0', '1', '2'] = some 18 ∧ (18 : Int) < 256 := by
  refine ⟨?_, by decide, by decide, by decide⟩
  decide


/-! ### Claim C8: indexed addressing-mode detection -/

theorem dropWhile_of_all_false (p : Char → Bool) :
    ∀ l : List Char, (∀ c ∈ l, p c = false) → l.dropWhile p = l := by
  intro l
  cases l with
  | nil => intro _; rfl
  | cons c t => intro h; simp [List.dropWhile_cons, h c (by simp)]

theorem pyStrip_eq_self (s : List Char) (h : ∀ c ∈ s, isPySpace c = false) :
    pyStrip s = s := by
  unfold pyStrip
  rw [dropWhile_of_all_false _ s h,
      dropWhile_of_all_false _ s.reverse (fun c hc => h c (List.mem_reverse.mp hc)),
      List.reverse_reverse]

theorem takeWhile_append_of_all (p : Char → Bool) :
    ∀ (v r : List Char), (∀ c ∈ v, p c = true) →
      (v ++ r).takeWhile p = v ++ r.takeWhile p := by
  intro v
  induction v with
  | nil => intro r _; rfl
  | cons c t ih =>
    intro r h
    have hc : p c = true := h c (by simp)
    simp [List.takeWhile_cons, hc, ih r (fun d hd => h d (by simp [hd]))]

theorem beforeComma_append (v r : List Char) (hv : ',' ∉ v) :
    beforeComma (v ++ ',' :: r) = v := by
  unfold beforeComma
  rw [takeWhile_append_of_all _ v _ ?_]
  · simp [List.takeWhile_cons]
  · intro c hc
    have : c ≠ ',' := fun he => hv (he ▸ hc)
    simp [this]

theorem pyUpperChar_comma {c : Char} (h : c ≠ ',') : pyUpperChar c ≠ ',' := by
  unfold pyUpperChar
  split <;> first | decide | exact h

theorem comma_notin_pyUpper (v : List Char) (h : ',' ∉ v) : ',' ∉ pyUpper v := by
  unfold pyUpper
  intro hm
  rcases List.mem_map.mp hm with ⟨c, hc, he⟩
  exact pyUpperChar_comma (fun heq => h (heq ▸ hc)) he

theorem hasSubstr_append_right (pat v s : List Char) (h : hasSubstr pat s = true) :
    hasSubstr pat (v ++ s) = true := by
  induction v with
  | nil => exact h
  | cons c t ih => simp [hasSubstr, ih]

theorem hasSubstr_commaX_false (u : List Char) (hu : ',' ∉ u) :
    hasSubstr [',', 'X'] (u ++ [',', 'Y']) = false := by
  induction u with
  | nil => decide
  | cons c t ih =>
    have hc : (',' : Char) ≠ c := fun he => hu (by simp [he.symm])
    have ht : ',' ∉ t := fun hm => hu (by simp [hm])
    simp [hasSubstr, isPrefixL, ih ht, hc]

/-- **C8** (`AddressingModeDetector.detect_addressing_mode`, amended):
for an operand `v,X` or `v,Y` (with `v` nonempty, whitespace- and
comma-free, not starting with `#` or `(`): a `$`-operand is zero page
indexed iff its text including the `$` is at most 3 characters long
(i.e. at most two hex digits); an operand parsed by `int(...)` is zero
page indexed iff its value is below 256; any other operand (symbols) is
absolute indexed. -/
theorem detect_indexed_mode (v : List Char) (idx : Char)
    (hidx : idx = 'X' ∨ idx = 'Y') (hne : v ≠ [])
    (hw : ∀ c ∈ v, isPySpace c = false) (hnc : ',' ∉ v)
    (hh1 : v.headD ' ' ≠ '#') (hh2 : v.headD ' ' ≠ '(') :
    (v.headD ' ' = '$' →
      detectAddressingMode (v ++ [',', idx]) =
        if v.length ≤ 3
        then (if idx = 'X' then AddressingMode.ZEROPAGE_X else AddressingMode.ZEROPAGE_Y)
        else (if idx = 'X' then AddressingMode.ABSOLUTE_X else AddressingMode.ABSOLUTE_Y)) ∧
    (v.headD ' ' ≠ '$' → ∀ n, pyIntDec v = some n →
      detectAddressingMode (v ++ [',', idx]) =
        if n < 256
        then (if idx = 'X' then AddressingMode.ZEROPAGE_X else AddressingMode.ZEROPAGE_Y)
        else (if idx = 'X' then AddressingMode.ABSOLUTE_X else AddressingMode.ABSOLUTE_Y)) ∧
    (v.headD ' ' ≠ '$' → pyIntDec v = none →
      detectAddressingMode (v ++ [',', idx]) =
        (if idx = 'X' then AddressingMode.ABSOLUTE_X else AddressingMode.ABSOLUTE_Y)) := by
  obtain ⟨c0, t0, rfl⟩ : ∃ c0 t0, v = c0 :: t0 := by
    cases v with
    | nil => exact absurd rfl hne
    | cons c t => exact ⟨_, _, rfl⟩
  simp only [List.headD_cons] at hh1 hh2 ⊢
  rcases hidx with rfl | rfl
  · -- idx = 'X'
    have hops : ∀ c ∈ (c0 :: t0) ++ [',', 'X'], isPySpace c = false := by
      intro c hc
      rcases List.mem_append.mp hc with h | h
      · exact hw c h
      · simp only [List.mem_cons, List.mem_singleton, List.not_mem_nil, or_false] at h
        rcases h with rfl | rfl <;> decide
    have hstrip : pyStrip ((c0 :: t0) ++ [',', 'X']) = (c0 :: t0) ++ [',', 'X'] :=
      pyStrip_eq_self _ hops
    have hdrop : ((c0 :: t0) ++ [',', 'X']).dropWhile isPySpace = (c0 :: t0) ++ [',', 'X'] :=
      dropWhile_of_all_false _ _ hops
    have hA : pyUpper ((c0 :: t0) ++ [',', 'X']) ≠ ['A'] := by
      intro he
      have := congrArg List.length he
      simp [pyUpper] at this
    have hmx : matchIndirectX ((c0 :: t0) ++ [',', 'X']) = false := by
      unfold matchIndirectX
      rw [hdrop]
      simp [hh2]
    have hmy : matchIndirectY ((c0 :: t0) ++ [',', 'X']) = false := by
      unfold matchIndirectY
      rw [hdrop]
      simp [hh2]
    have hmi : matchIndirect ((c0 :: t0) ++ [',', 'X']) = false := by
      unfold matchIndirect
      rw [hdrop]
      simp [hh2]
    have hup : pyUpper ((c0 :: t0) ++ [',', 'X']) = pyUpper (c0 :: t0) ++ [',', 'X'] := by
      unfold pyUpper
      rw [List.map_append]
      congr 1
    have hsub : hasSubstr [',', 'X'] (pyUpper ((c0 :: t0) ++ [',', 'X'])) = true := by
      rw [hup]
      exact hasSubstr_append_right _ _ _ (by decide)
    have hval : pyStrip (beforeComma ((c0 :: t0) ++ [',', 'X'])) = c0 :: t0 := by
      rw [show ((c0 :: t0) ++ [',', 'X']) = (c0 :: t0) ++ ',' :: ['X'] from rfl,
          beforeComma_append _ _ hnc]
      exact pyStrip_eq_self _ hw
    have hdet : detectAddressingMode ((c0 :: t0) ++ [',', 'X']) =
        if c0 = '$' then
          (if (c0 :: t0).length ≤ 3 then AddressingMode.ZEROPAGE_X
           else AddressingMode.ABSOLUTE_X)
        else
          (match pyIntDec (c0 :: t0) with
           | some num =>
             if num < 256 then AddressingMode.ZEROPAGE_X else AddressingMode.ABSOLUTE_X
           | none => AddressingMode.ABSOLUTE_X) := by
      unfold detectAddressingMode
      rw [hstrip, if_neg (by simp), if_neg (by simpa using hA),
          if_neg (by simpa using hh1), hmx, hmy, hmi, hsub, hval]
      simp only [List.headD_cons, Bool.false_eq_true, if_false, if_true]
    refine ⟨fun h => ?_, fun h n hp => ?_, fun h hp => ?_⟩
    · rw [hdet, if_pos h]
      simp
    · rw [hdet, if_neg h, hp]
      simp
    · rw [hdet, if_neg h, hp]
      simp
  · -- idx = 'Y'
    have hops : ∀ c ∈ (c0 :: t0) ++ [',', 'Y'], isPySpace c = false := by
      intro c hc
      rcases List.mem_append.mp hc with h | h
      · exact hw c h
      · simp only [List.mem_cons, List.mem_singleton, List.not_mem_nil, or_false] at h
        rcases h with rfl | rfl <;> decide
    have hstrip : pyStrip ((c0 :: t0) ++ [',', 'Y']) = (c0 :: t0) ++ [',', 'Y'] :=
      pyStrip_eq_self _ hops
    have hdrop : ((c0 :: t0) ++ [',', 'Y']).dropWhile isPySpace = (c0 :: t0) ++ [',', 'Y'] :=
      dropWhile_of_all_false _ _ hops
    have hA : pyUpper ((c0 :: t0) ++ [',', 'Y']) ≠ ['A'] := by
      intro he
      have := congrArg List.length he
      simp [pyUpper] at this
    have hmx : matchIndirectX ((c0 :: t0) ++ [',', 'Y']) = false := by
      unfold matchIndirectX
      rw [hdrop]
      simp [hh2]
    have hmy : matchIndirectY ((c0 :: t0) ++ [',', 'Y']) = false := by
      unfold matchIndirectY
      rw [hdrop]
      simp [hh2]
    have hmi : matchIndirect ((c0 :: t0) ++ [',', 'Y']) = false := by
      unfold matchIndirect
      rw [hdrop]
      simp [hh2]
    have hup : pyUpper ((c0 :: t0) ++ [',', 'Y']) = pyUpper (c0 :: t0) ++ [',', 'Y'] := by
      unfold pyUpper
      rw [List.map_append]
      congr 1
    have hsubX : hasSubstr [',', 'X'] (pyUpper ((c0 :: t0) ++ [',', 'Y'])) = false := by
      rw [hup]
      exact hasSubstr_commaX_false _ (comma_notin_pyUpper _ hnc)
    have hsubY : hasSubstr [',', 'Y'] (pyUpper ((c0 :: t0) ++ [',', 'Y'])) = true := by
      rw [hup]
      exact hasSubstr_append_right _ _ _ (by decide)
    have hval : pyStrip (beforeComma ((c0 :: t0) ++ [',', 'Y'])) = c0 :: t0 := by
      rw [show ((c0 :: t0) ++ [',', 'Y']) = (c0 :: t0) ++ ',' :: ['Y'] from rfl,
          beforeComma_append _ _ hnc]
      exact pyStrip_eq_self _ hw
    have hdet : detectAddressingMode ((c0 :: t0) ++ [',', 'Y']) =
        if c0 = '$' then
          (if (c0 :: t0).length ≤ 3 then AddressingMode.ZEROPAGE_Y
           else AddressingMode.ABSOLUTE_Y)
        else
          (match pyIntDec (c0 :: t0) with
           | some num =>
             if num < 256 then AddressingMode.ZEROPAGE_Y else AddressingMode.ABSOLUTE_Y
           | none => AddressingMode.ABSOLUTE_Y) := by
      unfold detectAddressingMode
      rw [hstrip, if_neg (by simp), if_neg (by simpa using hA),
          if_neg (by simpa using hh1), hmx, hmy, hmi, hsubX, hsubY, hval]
      simp only [List.headD_cons, Bool.false_eq_true, if_false, if_true]
    refine ⟨fun h => ?_, fun h n hp => ?_, fun h hp => ?_⟩
    · rw [hdet, if_pos h]
      simp
    · rw [hdet, if_neg h, hp]
      simp
    · rw [hdet, if_neg h, hp]
      simp



/-- Witness: the amended rule at `v = "$012"`, `idx = X`. -/
theorem detect_indexed_mode_witness :
    ((('X' : Char) = 'X' ∨ ('X' : Char) = 'Y') ∧
        (['$', '0', '1', '2'] : List Char) ≠ [] ∧
        (∀ c ∈ (['$', '0', '1', '2'] : List Char), isPySpace c = false) ∧
        ',' ∉ (['$', '0', '1', '2'] : List Char) ∧
        List.headD ['$', '0', '1', '2'] ' ' ≠ '#' ∧
        List.headD ['$', '0', '1', '2'] ' ' ≠ '(') ∧
      ((List.headD ['$', '0', '1', '2'] ' ' = '$' →
        detectAddressingMode (['$', '0', '1', '2'] ++ [',', 'X']) =
          if (['$', '0', '1', '2'] : List Char).length ≤ 3
          then (if ('X' : Char) = 'X' then AddressingMode.ZEROPAGE_X
                else AddressingMode.ZEROPAGE_Y)
          else (if ('X' : Char) = 'X' then AddressingMode.ABSOLUTE_X
                else AddressingMode.ABSOLUTE_Y)) ∧
      (List.headD ['$', '0', '1', '2'] ' ' ≠ '$' → ∀ n, pyIntDec ['$', '0', '1', '2'] = some n →
        detectAddressingMode (['$', '0', '1', '2'] ++ [',', 'X']) =
          if n < 256
          then (if ('X' : Char) = 'X' then AddressingMode.ZEROPAGE_X
                else AddressingMode.ZEROPAGE_Y)
          else (if ('X' : Char) = 'X' then AddressingMode.ABSOLUTE_X
                else AddressingMode.ABSOLUTE_Y)) ∧
      (List.headD ['$', '0', '1', '2'] ' ' ≠ '$' → pyIntDec ['$', '0', '1', '2'] = none →
        detectAddressingMode (['$', '0', '1', '2'] ++ [',', 'X']) =
          (if ('X' : Char) = 'X' then AddressingMode.ABSOLUTE_X
           else AddressingMode.ABSOLUTE_Y))) :=
  ⟨⟨Or.inl rfl, by decide, by decide, by decide, by decide, by decide⟩,
    detect_indexed_mode ['$', '0', '1', '2'] 'X' (Or.inl rfl) (by decide) (by decide)
      (by decide) (by decide) (by decide)⟩

end Emu
